import Mathlib

/-!
Verification of the attendance reconciliation engine of the `attensheets`
backend (files `db_manager.py`, `mongodb_manager.py`) against its
natural-language specification.

The Python data and functions are shallowly embedded: JSON-ish attendance
cell values become the inductive `Cell`, dictionaries keyed by date become
association lists, wall-clock timestamps become explicit `Nat` parameters,
and random QR codes become explicit `String` arguments.  Functions named
under the `Db` namespace embed `db_manager.py` (the file-based backend);
functions under `Mongo` embed `mongodb_manager.py`.  Definitions under
`Spec` are stated from the specification's own words and are only used to
compare the source functions against the spec (refinement claims).
-/

namespace Attensheets

/-! ### Decimal rendering of naturals (Python f-string `f"session_{n}"`)

`natDecStr` renders a natural in decimal.  It is defined by structural
recursion on a fuel argument so that the kernel can evaluate it, and it is
proved equal to `Nat.digits 10` to obtain injectivity. -/

def decDigitsGo : Nat → Nat → List Nat
  | _, 0 => []
  | 0, _ + 1 => []
  | fuel + 1, n + 1 => ((n + 1) % 10) :: decDigitsGo fuel ((n + 1) / 10)

def decDigits (n : Nat) : List Nat := decDigitsGo n n

theorem decDigitsGo_eq_digits : ∀ (fuel n : Nat), n ≤ fuel →
    decDigitsGo fuel n = Nat.digits 10 n := by
  intro fuel
  induction fuel with
  | zero =>
    intro n hn
    interval_cases n
    simp [decDigitsGo]
  | succ f ih =>
    intro n hn
    cases n with
    | zero => simp [decDigitsGo]
    | succ m =>
      have hdiv : (m + 1) / 10 ≤ f := by
        have h1 : (m + 1) / 10 < m + 1 := Nat.div_lt_self (Nat.succ_pos m) (by norm_num)
        omega
      rw [show decDigitsGo (f + 1) (m + 1)
            = ((m + 1) % 10) :: decDigitsGo f ((m + 1) / 10) from rfl,
          ih _ hdiv, Nat.digits_def' (by norm_num : (1:ℕ) < 10) (Nat.succ_pos m)]

theorem decDigits_eq_digits (n : Nat) : decDigits n = Nat.digits 10 n :=
  decDigitsGo_eq_digits n n (Nat.le_refl n)

def natDecStr (n : Nat) : String :=
  if n = 0 then "0" else ((decDigits n).reverse.map Nat.digitChar).asString

theorem digitChar_inj_fin : ∀ a b : Fin 10,
    Nat.digitChar a.val = Nat.digitChar b.val → a = b := by decide

theorem map_digitChar_inj : ∀ {l1 l2 : List Nat},
    (∀ d ∈ l1, d < 10) → (∀ d ∈ l2, d < 10) →
    l1.map Nat.digitChar = l2.map Nat.digitChar → l1 = l2 := by
  intro l1
  induction l1 with
  | nil =>
    intro l2 _ _ h
    cases l2 with
    | nil => rfl
    | cons b t => simp at h
  | cons a t ih =>
    intro l2 h1 h2 h
    cases l2 with
    | nil => simp at h
    | cons b t2 =>
      simp only [List.map_cons, List.cons.injEq] at h
      have ha : a < 10 := h1 a (List.mem_cons_self a t)
      have hb : b < 10 := h2 b (List.mem_cons_self b t2)
      have hab : a = b := by
        have := digitChar_inj_fin ⟨a, ha⟩ ⟨b, hb⟩ h.1
        exact congrArg Fin.val this
      have ht : t = t2 := ih (fun d hd => h1 d (List.mem_cons_of_mem a hd))
        (fun d hd => h2 d (List.mem_cons_of_mem b hd)) h.2
      rw [hab, ht]

theorem asString_inj {l1 l2 : List Char} (h : l1.asString = l2.asString) :
    l1 = l2 :=
  congrArg String.data h

theorem natDecStr_inj {m n : Nat} (hm : 0 < m) (hn : 0 < n)
    (h : natDecStr m = natDecStr n) : m = n := by
  unfold natDecStr at h
  rw [if_neg (Nat.pos_iff_ne_zero.mp hm), if_neg (Nat.pos_iff_ne_zero.mp hn)] at h
  have h2 := asString_inj h
  have hd1 : ∀ d ∈ (decDigits m).reverse, d < 10 := by
    intro d hd
    rw [List.mem_reverse, decDigits_eq_digits] at hd
    exact Nat.digits_lt_base (by norm_num) hd
  have hd2 : ∀ d ∈ (decDigits n).reverse, d < 10 := by
    intro d hd
    rw [List.mem_reverse, decDigits_eq_digits] at hd
    exact Nat.digits_lt_base (by norm_num) hd
  have h3 := map_digitChar_inj hd1 hd2 h2
  have h4 : decDigits m = decDigits n := by
    have := congrArg List.reverse h3
    simpa using this
  rw [decDigits_eq_digits, decDigits_eq_digits] at h4
  exact Nat.digits_inj_iff.mp h4

/-- The id string `f"session_{i}"` used throughout both backends. -/
def sid (i : Nat) : String := "session_" ++ natDecStr i

/-- The display name `f"QR Session {i}"` used throughout both backends. -/
def qrName (i : Nat) : String := "QR Session " ++ natDecStr i

theorem sid_inj {i j : Nat} (hi : 0 < i) (hj : 0 < j) (h : sid i = sid j) :
    i = j := by
  unfold sid at h
  have hdata := congrArg String.data h
  rw [String.data_append, String.data_append] at hdata
  have h2 := List.append_cancel_left hdata
  exact natDecStr_inj hi hj (String.ext h2)

theorem sid_ne {i j : Nat} (hi : 0 < i) (hj : 0 < j) (h : i ≠ j) :
    sid i ≠ sid j := fun hc => h (sid_inj hi hj hc)

/-! ### Python list/dict primitives -/

/-- Python `list.insert(i, a)`: insert at position `i`, clamped to the end. -/
def pyInsert {α : Type} (i : Nat) (a : α) (l : List α) : List α :=
  l.take i ++ a :: l.drop i

/-- Python dict write `d[k] = v` on a dict modelled as an association list:
replace the first binding of `k`, else append at the end (dicts preserve
insertion order). -/
def setKey {α : Type} : List (String × α) → String → α → List (String × α)
  | [], k, v => [(k, v)]
  | (k', v') :: rest, k, v =>
    if k' = k then (k, v) :: rest else (k', v') :: setKey rest k v

/-- Python dict read `d.get(k)`. -/
def getKey {α : Type} : List (String × α) → String → Option α
  | [], _ => none
  | (k', v') :: rest, k => if k' = k then some v' else getKey rest k

/-! ### Data model (spec §3) -/

/-- One element of a canonical-sessions `sessions` list:
`{"id": ..., "name": ..., "status": "P"|"A"|"L"|null}`. -/
structure SessionEntry where
  id : String
  name : String
  status : Option String
deriving Repr, DecidableEq

/-- An attendance cell value as stored for one (student, date).
`simple` is the legacy one-character string, `counted` the legacy
`{status, count}` object (`none` components model JSON `null`/missing key),
`sessionsObj` the canonical `{sessions, updated_at}` object (the
`updated_at` wall-clock string is modelled as a `Nat`), and `other` stands
for any stored value of an unrecognized shape (neither a string nor a dict
with a `sessions` or `status` key). -/
inductive Cell where
  | simple (s : String)
  | counted (status : Option String) (count : Option Nat)
  | sessionsObj (sessions : List SessionEntry) (updatedAt : Nat)
  | other
deriving Repr, DecidableEq

/-- Python truthiness `if day_data:` for a stored cell value: an empty
string is falsy; the dict shapes modelled here always carry a key and are
truthy. -/
def Cell.truthy : Cell → Bool
  | .simple s => s ≠ ""
  | _ => true

/-- A student record inside a class document:
`{id, rollNo, name, email, attendance}` with `attendance` a dict from ISO
date string to cell value. -/
structure Student where
  id : String
  rollNo : String
  name : String
  email : String
  attendance : List (String × Cell)
deriving Repr, DecidableEq

/-- Per-class thresholds `{excellent, good, moderate, atRisk}`. -/
structure Thresholds where
  excellent : Rat
  good : Rat
  moderate : Rat
  atRisk : Rat
deriving Repr, DecidableEq

/-- The default thresholds used by both backends when a class has none. -/
def defaultThresholds : Thresholds := ⟨95, 90, 85, 85⟩

/-- The statistics object of `db_manager.calculate_class_statistics`.
The `lastCalculated` timestamp is present except in the empty-class early
return, which omits the key. -/
structure ClassStats where
  totalStudents : Nat
  avgAttendance : Rat
  atRiskCount : Nat
  excellentCount : Nat
  lastCalculated : Option Nat
deriving Repr, DecidableEq

/-- The (differently shaped) statistics object returned by
`mongodb_manager.calculate_class_statistics`. -/
structure MongoClassStats where
  totalStudents : Nat
  averageAttendance : Rat
  totalSessions : Nat
deriving Repr, DecidableEq

/-- The result object of `calculate_student_statistics` (both backends). -/
structure StudentStats where
  total_classes : Nat
  present : Nat
  absent : Nat
  late : Nat
  percentage : Rat
  status : String
deriving Repr, DecidableEq

/-- A class document (only the fields the verified operations read). -/
structure ClassDoc where
  teacher_id : String
  enrollment_mode : String
  thresholds : Option Thresholds
  students : List Student
  statistics : ClassStats
deriving Repr, DecidableEq

/-- A QR session document / file. -/
structure QrSession where
  class_id : String
  teacher_id : String
  date : String
  session_number : Nat
  rotation_interval : Nat
  current_code : String
  scanned_students : List String
  status : String
  started_at : Nat
  code_generated_at : Nat
  stopped_at : Option Nat
deriving Repr, DecidableEq

/-- An enrollment row linking a student account to a class roster slot. -/
structure Enrollment where
  student_id : String
  student_record_id : String
  status : String
  roll_no : String
  enrolled_at : Nat
  unenrolled_at : Option Nat
  re_enrolled_at : Option Nat
deriving Repr, DecidableEq

/-- The `student_info` payload supplied on enrollment. -/
structure StudentInfo where
  rollNo : String
  name : String
  email : String
deriving Repr, DecidableEq

/-! ### Rounding (Python `round(x, k)`, round-half-to-even)

Percentages are modelled as exact rationals; Python's binary floating
point is out of scope here, and `round` is modelled as exact
round-half-to-even at `k` decimal places. -/

/-- Round-half-to-even of a rational to an integer. -/
def roundHalfEven (q : Rat) : Int :=
  let f : Int := ⌊q⌋
  let r : Rat := q - f
  if r < 1/2 then f
  else if 1/2 < r then f + 1
  else if f % 2 = 0 then f else f + 1

/-- Python `round(q, 3)`. -/
def round3 (q : Rat) : Rat := (roundHalfEven (q * 1000) : Rat) / 1000

/-- Python `round(q, 2)`. -/
def round2 (q : Rat) : Rat := (roundHalfEven (q * 100) : Rat) / 100

/-! ### Session-list primitives shared by the update paths -/

/-- First entry with the given id, returning its status
(`for session in sessions: if session.get('id') == target: ...`). -/
def lookupById : List SessionEntry → String → Option (Option String)
  | [], _ => none
  | e :: rest, tgt => if e.id = tgt then some e.status else lookupById rest tgt

/-- Set the status of the first entry whose id matches
(`for session in sessions: if ...: session['status'] = v; break`). -/
def setFirstStatus : List SessionEntry → String → String → List SessionEntry
  | [], _, _ => []
  | e :: rest, tgt, v =>
    if e.id = tgt then { e with status := some v } :: rest
    else e :: setFirstStatus rest tgt v

/-- The gap-filling loop of both backends' scan/stop updates:
`existing_ids = {s['id'] for s in sessions}` is computed once, then for
`i in range(1, n + 1)` a missing `session_i` is inserted at position
`i - 1` with name `QR Session i` and status `stat i`. -/
def fillStep (stat : Nat → String) (ids : List String)
    (acc : List SessionEntry) (i : Nat) : List SessionEntry :=
  if sid i ∈ ids then acc
  else pyInsert (i - 1) ⟨sid i, qrName i, some (stat i)⟩ acc

def fillMissing (stat : Nat → String) (n : Nat) (l : List SessionEntry) :
    List SessionEntry :=
  (List.range' 1 n).foldl (fillStep stat (l.map SessionEntry.id)) l

/-- Status inserted for `session_i` by the scan updates:
`"P" if i == qr_session_number else "A"`. -/
def scanFillStat (n i : Nat) : String := if i = n then "P" else "A"

/-- Status for `session_i` when the scan path rebuilds a sessions array
from an empty or legacy-simple cell (db_manager.py lines 200-215):
session 1 inherits the legacy string if there was one, earlier sessions
default to absent. -/
def dbFreshStatus (legacy : Option String) (i : Nat) : String :=
  match legacy with
  | some s => if i = 1 then s else "A"
  | none => "A"

/-- The sessions list built by `db_manager.scan_qr_code` for session
`n > 1` over an empty or legacy-simple cell: entries `1..n-1` with the
back-fill status, then the current session marked present. -/
def scanFresh (legacy : Option String) (n : Nat) : List SessionEntry :=
  ((List.range' 1 (n - 1)).map fun i =>
    ⟨sid i, qrName i, some (dbFreshStatus legacy i)⟩)
  ++ [⟨sid n, qrName n, some "P"⟩]

/-- Status for `session_i` in `mongodb_manager.scan_qr_code`'s rebuild
(lines 1147-1154): `current_value if (i == 1 and isinstance(current_value,
str)) else "A" if i < n else "P"`. -/
def mongoFreshStatus (legacy : Option String) (n i : Nat) : String :=
  match legacy with
  | some s => if i = 1 then s else if i < n then "A" else "P"
  | none => if i < n then "A" else "P"

/-- The sessions list built by `mongodb_manager.scan_qr_code` for session
`n > 1` over an empty or legacy-simple cell. -/
def mongoScanFresh (legacy : Option String) (n : Nat) : List SessionEntry :=
  (List.range' 1 n).map fun i => ⟨sid i, qrName i, some (mongoFreshStatus legacy n i)⟩

/-- The sessions list built by the stop paths (db_manager.py lines
326-338, mongodb_manager.py lines 1027-1038) for session `n > 1` over an
empty or legacy-simple cell: all of `1..n` absent, except a preserved
legacy mark at session 1. -/
def stopFresh (legacy : Option String) (n : Nat) : List SessionEntry :=
  (List.range' 1 n).map fun i => ⟨sid i, qrName i, some (dbFreshStatus legacy i)⟩

namespace Db

/-- The attendance-cell write performed by `db_manager.scan_qr_code`
(lines 166-251) for QR session number `n` at timestamp `t`, as a function
of the cell's current value.  Session validation, enrollment lookup and
persistence surround this in the source and are modelled elsewhere.
A legacy-counted `{status, count}` value and unrecognized shapes match no
branch of the source and are left unchanged. -/
def scanCellUpdate (t n : Nat) (cur : Option Cell) : Cell :=
  if n = 1 then
    match cur with
    | none => .simple "P"
    | some (.simple _) => .simple "P"
    | some (.sessionsObj [] _) =>
        .sessionsObj [⟨"session_1", "QR Session 1", some "P"⟩] t
    | some (.sessionsObj (e :: rest) _) =>
        .sessionsObj ({ e with status := some "P" } :: rest) t
    | some c => c
  else
    match cur with
    | none => .sessionsObj (scanFresh none n) t
    | some (.simple s) => .sessionsObj (scanFresh (some s) n) t
    | some (.sessionsObj l _) =>
        .sessionsObj (setFirstStatus (fillMissing (scanFillStat n) n l) (sid n) "P") t
    | some c => c

end Db

namespace Mongo

/-- The attendance-cell write performed by `mongodb_manager.scan_qr_code`
(lines 1141-1180).  For session number 1 the current value is replaced
wholesale by `'P'` (line 1143), whatever its shape. -/
def scanCellUpdate (t n : Nat) (cur : Option Cell) : Cell :=
  if n = 1 then
    .simple "P"
  else
    match cur with
    | none => .sessionsObj (mongoScanFresh none n) t
    | some (.simple s) => .sessionsObj (mongoScanFresh (some s) n) t
    | some (.sessionsObj l _) =>
        .sessionsObj (setFirstStatus (fillMissing (scanFillStat n) n l) (sid n) "P") t
    | some c => c

end Mongo

/-- The attendance-cell write performed on a non-scanning student by the
stop paths, identical in `db_manager.stop_qr_session` (lines 316-360) and
`mongodb_manager.stop_qr_session` (lines 1021-1053): session 1 overwrites
the cell with `'A'`; later sessions back-fill missing `session_1..n` slots
with `'A'` (no existing slot is overwritten). -/
def stopCellUpdate (t n : Nat) (cur : Option Cell) : Cell :=
  if n = 1 then .simple "A"
  else
    match cur with
    | none => .sessionsObj (stopFresh none n) t
    | some (.simple s) => .sessionsObj (stopFresh (some s) n) t
    | some (.sessionsObj l _) => .sessionsObj (fillMissing (fun _ => "A") n l) t
    | some c => c

/-! ### Statistics (spec §4.4) -/

/-- Running attendance counters. -/
structure Counts where
  present : Nat
  absent : Nat
  late : Nat
  total : Nat
deriving Repr, DecidableEq

/-- `if status in ["P","A","L"]: total += 1; if/elif ...` -/
def tallyStatus (c : Counts) (s : String) : Counts :=
  if s = "P" then { c with present := c.present + 1, total := c.total + 1 }
  else if s = "A" then { c with absent := c.absent + 1, total := c.total + 1 }
  else if s = "L" then { c with late := c.late + 1, total := c.total + 1 }
  else c

/-- The legacy-counted branch: `count = value.get('count', 1)` added to the
bucket selected by `status`, skipped entirely for a non-P/A/L status. -/
def tallyCounted (c : Counts) (st : Option String) (cnt : Option Nat) : Counts :=
  match st with
  | some s =>
    let k := cnt.getD 1
    if s = "P" then { c with present := c.present + k, total := c.total + k }
    else if s = "A" then { c with absent := c.absent + k, total := c.total + k }
    else if s = "L" then { c with late := c.late + k, total := c.total + k }
    else c
  | none => c

/-- Per-cell accumulation of `calculate_student_statistics`
(db_manager.py lines 1925-1964, mongodb_manager.py lines 755-794; the two
differ only in defensive coercions that cannot arise in this typed
model). -/
def tallyCell (c : Counts) (v : Cell) : Counts :=
  match v with
  | .sessionsObj l _ =>
      l.foldl (fun acc e =>
        match e.status with
        | some s => tallyStatus acc s
        | none => acc) c
  | .counted st cnt => tallyCounted c st cnt
  | .simple s => tallyStatus c s
  | .other => c

/-- Per-cell accumulation of `db_manager.calculate_class_statistics`
(lines 853-890); it guards the sessions branch with
`value.get('sessions')` being truthy (non-empty). -/
def tallyCellClass (c : Counts) (v : Cell) : Counts :=
  match v with
  | .sessionsObj l _ =>
      if l.isEmpty then c
      else
        l.foldl (fun acc e =>
          match e.status with
          | some s => tallyStatus acc s
          | none => acc) c
  | .counted st cnt => tallyCounted c st cnt
  | .simple s => tallyStatus c s
  | .other => c

/-- `calculate_student_statistics` (db_manager.py lines 1892-1986 and the
behaviorally identical mongodb_manager.py lines 729-814). -/
def calculate_student_statistics (record : Student)
    (thresholds : Option Thresholds) : StudentStats :=
  let th := thresholds.getD defaultThresholds
  if record.attendance.isEmpty then ⟨0, 0, 0, 0, 0, "no data"⟩
  else
    let c := record.attendance.foldl (fun acc kv => tallyCell acc kv.2) ⟨0, 0, 0, 0⟩
    let pct : Rat := if 0 < c.total then ((c.present : Rat) + c.late) / c.total * 100 else 0
    let status :=
      if th.excellent ≤ pct then "excellent"
      else if th.good ≤ pct then "good"
      else if th.moderate ≤ pct then "moderate"
      else "at risk"
    ⟨c.total, c.present, c.absent, c.late, round3 pct, status⟩

/-- Accumulator of the per-student loop of
`db_manager.calculate_class_statistics`. -/
structure ClassAcc where
  atRisk : Nat
  excellent : Nat
  totalAttendance : Rat
  withAttendance : Nat
deriving Repr, DecidableEq

namespace Db

/-- The per-student body of `db_manager.calculate_class_statistics`
(lines 841-904): skip a student with an empty attendance dict; tally the
counters over all formats; when at least one valid session exists, add
the percentage (Present + Late attended) to the running average and bump
the bucket whose threshold test fires (`if pct >= excellent ... elif
pct < atRisk`). -/
def classStep (th : Thresholds) (a : ClassAcc) (st : Student) : ClassAcc :=
  if st.attendance.isEmpty then a
  else
    let c := st.attendance.foldl (fun acc kv => tallyCellClass acc kv.2) ⟨0, 0, 0, 0⟩
    if 0 < c.total then
      let pct : Rat := ((c.present : Rat) + c.late) / c.total * 100
      if th.excellent ≤ pct then
        { a with excellent := a.excellent + 1,
                 totalAttendance := a.totalAttendance + pct,
                 withAttendance := a.withAttendance + 1 }
      else if pct < th.atRisk then
        { a with atRisk := a.atRisk + 1,
                 totalAttendance := a.totalAttendance + pct,
                 withAttendance := a.withAttendance + 1 }
      else
        { a with totalAttendance := a.totalAttendance + pct,
                 withAttendance := a.withAttendance + 1 }
    else a

/-- `db_manager.calculate_class_statistics` (lines 807-921). -/
def calculate_class_statistics (t : Nat) (cd : ClassDoc) : ClassStats :=
  if cd.students.isEmpty then ⟨0, 0, 0, 0, none⟩
  else
    let a := cd.students.foldl (classStep (cd.thresholds.getD defaultThresholds))
      ⟨0, 0, 0, 0⟩
    ⟨cd.students.length,
     round3 (if 0 < a.withAttendance then a.totalAttendance / a.withAttendance else 0),
     a.atRisk, a.excellent, some t⟩

end Db

/-- The per-day present test of `mongodb_manager.calculate_class_statistics`
(line 572): `v == "P" or (isinstance(v, dict) and any(s.get("status") ==
"P" for s in v.get("sessions", [])))`. -/
def mongoDayPresent (v : Cell) : Bool :=
  match v with
  | .simple s => s = "P"
  | .counted _ _ => false
  | .sessionsObj l _ => l.any fun e => e.status = some "P"
  | .other => false

namespace Mongo

/-- `mongodb_manager.calculate_class_statistics` (lines 552-585): a day
counts as present only if it carries a `P`; `total_days` counts dates,
not sessions; the average is rounded to 2 decimals; no risk buckets. -/
def calculate_class_statistics (cd : ClassDoc) : MongoClassStats :=
  if cd.students.isEmpty then ⟨0, 0, 0⟩
  else
    let a := cd.students.foldl
      (fun (a : Rat × Nat × Nat) st =>
        if st.attendance.isEmpty then a
        else
          let presentCount := (st.attendance.filter fun kv => mongoDayPresent kv.2).length
          let totalDays := st.attendance.length
          if 0 < totalDays then
            (a.1 + (presentCount : Rat) / totalDays * 100, a.2.1 + 1, max a.2.2 totalDays)
          else a)
      (0, 0, 0)
    let avg : Rat := if 0 < a.2.1 then a.1 / a.2.1 else 0
    ⟨cd.students.length, round2 avg, a.2.2⟩

end Mongo

/-! ### Session numbering and the QR session lifecycle (spec §4.2, §4.5) -/

namespace Db

/-- `db_manager._count_valid_sessions_for_date` (lines 2097-2141): the
maximum, over the class's students, of the number of non-null-status
session slots stored for the date. -/
def count_valid_sessions_for_date (cd : ClassDoc) (date : String) : Nat :=
  if cd.students.isEmpty then 0
  else
    cd.students.foldl
      (fun m st =>
        match getKey st.attendance date with
        | none => m
        | some v =>
          if v.truthy then
            match v with
            | .sessionsObj l _ => max m (l.filter fun e => e.status ≠ none).length
            | .counted st' cnt => if st' ≠ none then max m (cnt.getD 1) else m
            | .simple _ => max m 1
            | .other => m
          else m)
      0

/-- `if existing_session and existing_session.get("status") == "active"`. -/
def existingActive (existing : Option QrSession) : Bool :=
  match existing with
  | some s => decide (s.status = "active")
  | none => false

/-- `db_manager.start_qr_session` (lines 2043-2095).  The class document
(`None` when lookup failed), any stored QR-session file for the date, the
freshly generated random code and the current time are passed in
explicitly. -/
def start_qr_session (class_id teacher_id date : String) (rotation_interval : Nat)
    (cls : Option ClassDoc) (existing : Option QrSession) (code : String)
    (t : Nat) : Except String QrSession :=
  match cls with
  | none => .error "Class not found or unauthorized"
  | some cd =>
    if cd.teacher_id ≠ teacher_id then .error "Class not found or unauthorized"
    else if cd.enrollment_mode ≠ "enrollment_via_id" then
      .error "QR attendance is only available for classes with student enrollment via Class ID"
    else
      let valid := count_valid_sessions_for_date cd date
      if existingActive existing then
        .error "There is already an active QR session for this date. Please stop it first."
      else
        .ok ⟨class_id, teacher_id, date, valid + 1, rotation_interval, code, [],
             "active", t, t, none⟩

/-- The set of actively-enrolled student record ids collected by
`stop_qr_session` (db_manager.py lines 296-302). -/
def activeRecordIds (enrollments : List Enrollment) : List String :=
  (enrollments.filter fun e => e.status = "active").map Enrollment.student_record_id

/-- The per-student write of the stop path (db_manager.py lines 316-360):
the student's cell for the date receives the result of the stop merge. -/
def stopMark (t n : Nat) (date : String) (st : Student) : Student :=
  { st with attendance :=
      setKey st.attendance date (stopCellUpdate t n (getKey st.attendance date)) }

/-- `db_manager.stop_qr_session` (lines 276-381).  Returns the updated
class document (its cached `statistics` field is written back untouched —
the function never recomputes it), the closed session, and the
scanned/absent counts (`len(set(scanned))` and the number of
actively-enrolled roster students outside the scanned set). -/
def stop_qr_session (session : Option QrSession) (enrollments : List Enrollment)
    (cd : ClassDoc) (teacher_id date : String) (t : Nat) :
    Except String (ClassDoc × QrSession × Nat × Nat) :=
  match session with
  | none => .error "No active session"
  | some s =>
    if s.status ≠ "active" then .error "No active session"
    else if s.teacher_id ≠ teacher_id then .error "Unauthorized"
    else
      .ok ({ cd with students := cd.students.map fun st =>
              if st.id ∈ activeRecordIds enrollments ∧ st.id ∉ s.scanned_students then
                stopMark t s.session_number date st
              else st },
           { s with status := "stopped", stopped_at := some t },
           s.scanned_students.dedup.length,
           (cd.students.filter fun st => decide (st.id ∈ activeRecordIds enrollments ∧
             st.id ∉ s.scanned_students)).length)

end Db

namespace Mongo

/-- The session number chosen by `mongodb_manager.start_qr_session`
(lines 890-898): one more than the highest `session_number` among ALL
stored QR-session documents for the (class, date) — any status — and 1
when there are none.  Stored attendance data is never consulted. -/
def next_session_number (matching : List QrSession) : Nat :=
  if matching.isEmpty then 1
  else (matching.map QrSession.session_number).foldl max 0 + 1

/-- `mongodb_manager.start_qr_session` (lines 869-921).  `store` is the
`qr_sessions` collection.  The function takes no class document at all:
no enrollment-mode check exists on this path. -/
def start_qr_session (class_id teacher_id date : String) (rotation_interval : Nat)
    (store : List QrSession) (code : String) (t : Nat) : Except String QrSession :=
  let matching := store.filter fun s => decide (s.class_id = class_id ∧ s.date = date)
  if matching.any fun s => s.status = "active" then
    .error "An active QR session already exists for this date"
  else
    .ok ⟨class_id, teacher_id, date, next_session_number matching, rotation_interval,
         code, [], "active", t, t, none⟩

end Mongo

/-! ### Enrollment operations (db_manager.py) -/

namespace Db

/-- The search-and-flip loop of `db_manager.unenroll_student` (lines
1740-1761): mark the first ACTIVE enrollment of the student inactive with
an `unenrolled_at` timestamp; `none` when there is none. -/
def markFirstInactive (student_id : String) (t : Nat) :
    List Enrollment → Option (List Enrollment)
  | [] => none
  | e :: rest =>
    if e.student_id = student_id ∧ e.status = "active" then
      some ({ e with status := "inactive", unenrolled_at := some t } :: rest)
    else (markFirstInactive student_id t rest).map (e :: ·)

/-- `db_manager.unenroll_student` (lines 1720-1794) restricted to the
class's enrollment list and student records: the enrollment status is
flipped; the student records (and hence all attendance) are not touched
at all.  Returns the success flag and the new state. -/
def unenroll_student (student_id : String) (enrollments : List Enrollment)
    (students : List Student) (t : Nat) : Bool × List Enrollment × List Student :=
  match markFirstInactive student_id t enrollments with
  | some l => (true, l, students)
  | none => (false, enrollments, students)

/-- The previous-enrollment search of `db_manager.enroll_student` (lines
1588-1594): first enrollment row of the student, any status. -/
def findFirstEnrollment (student_id : String) : List Enrollment → Option Enrollment
  | [] => none
  | e :: rest =>
    if e.student_id = student_id then some e else findFirstEnrollment student_id rest

/-- Reactivation (lines 1604-1608): the first enrollment row of the
student gets status active, a re-enrollment timestamp and the fresh roll
number. -/
def reactivateFirst (student_id roll_no : String) (t : Nat) :
    List Enrollment → List Enrollment
  | [] => []
  | e :: rest =>
    if e.student_id = student_id then
      { e with status := "active", re_enrolled_at := some t, roll_no := roll_no } :: rest
    else e :: reactivateFirst student_id roll_no t rest

/-- Record refresh on re-enrollment (lines 1610-1631): the first student
record with the preserved `student_record_id` gets the fresh roll number
and name, its attendance untouched; `none` when the record is gone. -/
def updateFirstRecord (rid : String) (info : StudentInfo) :
    List Student → Option (List Student)
  | [] => none
  | st :: rest =>
    if st.id = rid then some ({ st with rollNo := info.rollNo, name := info.name } :: rest)
    else (updateFirstRecord rid info rest).map (st :: ·)

/-- `db_manager.enroll_student` (lines 1555-1718) restricted to the
enrollment list and student records.  `newRecordId` stands for the
generated record id of the new-enrollment branch.  Returns the status
string, the effective `student_record_id` and the new state. -/
def enroll_student (student_id : String) (info : StudentInfo)
    (enrollments : List Enrollment) (students : List Student)
    (newRecordId : String) (t : Nat) :
    Except String (String × String × List Enrollment × List Student) :=
  if enrollments.any fun e => decide (e.student_id = student_id ∧ e.status = "active") then
    .error "You are already enrolled in this class"
  else
    match findFirstEnrollment student_id enrollments with
    | some prev =>
      let en' := reactivateFirst student_id info.rollNo t enrollments
      let sts' :=
        match updateFirstRecord prev.student_record_id info students with
        | some l => l
        | none => students ++ [⟨prev.student_record_id, info.rollNo, info.name, info.email, []⟩]
      .ok ("re-enrolled", prev.student_record_id, en', sts')
    | none =>
      .ok ("enrolled", newRecordId,
           enrollments ++ [⟨student_id, newRecordId, "active", info.rollNo, t, none, none⟩],
           students ++ [⟨newRecordId, info.rollNo, info.name, info.email, []⟩])

end Db

/-! ### Definitions taken from the specification's words (for refinement
claims only; the source functions above are always the comparison's other
side) -/

namespace Spec

/-- Decode per spec §4.1: `null` → empty; a P/A/L string → one `session_1`
entry; `{status, count}` → `count` entries sharing the status (ids
synthesized `session_1..count`, `count` defaulting to 1 when absent);
`{sessions: [...]}` → the list as-is; unrecognized shapes → empty list
(§7 resilience rule). -/
def decode : Option Cell → List SessionEntry
  | none => []
  | some (.simple s) =>
    if s = "P" ∨ s = "A" ∨ s = "L" then [⟨"session_1", "Session 1", some s⟩] else []
  | some (.counted st cnt) =>
    (List.range' 1 (cnt.getD 1)).map fun i => ⟨sid i, "Session " ++ natDecStr i, st⟩
  | some (.sessionsObj l _) => l
  | some .other => []

/-- Spec §4.1: "Valid sessions" = entries whose status is not null. -/
def validCount (v : Option Cell) : Nat :=
  ((decode v).filter fun e => e.status ≠ none).length

/-- Spec §4.2: the maximum decoded valid count across the class's
students for the date (0 with no students or no data). -/
def maxValidCount (cd : ClassDoc) (date : String) : Nat :=
  (cd.students.map fun st => validCount (getKey st.attendance date)).foldl max 0

/-- Number of decoded entries of one cell bearing exactly status `s`. -/
def cellStatusCount (v : Cell) (s : String) : Nat :=
  ((decode (some v)).filter fun e => e.status = some s).length

/-- Spec §4.4 per-student counter: decoded entries with the given status
summed over every date of the record. -/
def countOf (record : Student) (s : String) : Nat :=
  (record.attendance.map fun kv => cellStatusCount kv.2 s).sum

/-- Spec §4.4: valid entries are the non-null P/A/L ones. -/
def totalOf (record : Student) : Nat :=
  countOf record "P" + countOf record "A" + countOf record "L"

/-- Spec §4.4 status buckets, checked in order excellent > good >
moderate, else "at risk". -/
def bucket (th : Thresholds) (pct : Rat) : String :=
  if th.excellent ≤ pct then "excellent"
  else if th.good ≤ pct then "good"
  else if th.moderate ≤ pct then "moderate"
  else "at risk"

/-- Spec §4.4 per-student statistics, written from the spec sentence:
counters from decoded valid entries, `percentage = (present + late) /
total * 100` (0 when total is 0) rounded to 3 decimals, bucketed status,
and "no data" for an entirely empty attendance mapping. -/
def student_statistics (record : Student) (thresholds : Option Thresholds) :
    StudentStats :=
  let th := thresholds.getD defaultThresholds
  if record.attendance.isEmpty then ⟨0, 0, 0, 0, 0, "no data"⟩
  else
    let p := countOf record "P"
    let a := countOf record "A"
    let l := countOf record "L"
    let tot := p + a + l
    let pct : Rat := if 0 < tot then ((p : Rat) + l) / tot * 100 else 0
    ⟨tot, p, a, l, round3 pct, bucket th pct⟩

/-- Per-student percentage used by the class aggregate (meaningful when
the student has at least one valid session). -/
def studentPct (st : Student) : Rat :=
  ((countOf st "P" : Rat) + countOf st "L") / totalOf st * 100

/-- Spec §4.4: the students entering the class average — those with at
least one valid session. -/
def studentsWithData (l : List Student) : List Student :=
  l.filter fun st => decide (0 < totalOf st)

/-- Spec §4.4 class average: mean of the per-student percentages over
`studentsWithData` (0 when none), rounded to 3 decimals. -/
def classAvg (l : List Student) : Rat :=
  if (studentsWithData l).isEmpty then 0
  else round3 (((studentsWithData l).map studentPct).sum / (studentsWithData l).length)

/-- Spec §4.4 excellent bucket count against the class thresholds,
among students with at least one valid session. -/
def classExcellentCount (l : List Student) (th : Thresholds) : Nat :=
  (l.filter fun st => decide (0 < totalOf st ∧ th.excellent ≤ studentPct st)).length

/-- Spec §4.4 at-risk bucket count against the class thresholds, among
students with at least one valid session (a student already counted
excellent is not counted at risk). -/
def classAtRiskCount (l : List Student) (th : Thresholds) : Nat :=
  (l.filter fun st => decide (0 < totalOf st ∧
    ¬th.excellent ≤ studentPct st ∧ studentPct st < th.atRisk)).length

end Spec

/-! ### Lemmas: association lists -/

theorem getKey_setKey_self {α : Type} (l : List (String × α)) (k : String) (v : α) :
    getKey (setKey l k v) k = some v := by
  induction l with
  | nil => simp [setKey, getKey]
  | cons hd tl ih =>
    obtain ⟨k', v'⟩ := hd
    by_cases h : k' = k
    · simp [setKey, getKey, h]
    · simp [setKey, getKey, h, ih]

theorem getKey_setKey_ne {α : Type} (l : List (String × α)) {k k' : String} (v : α)
    (h : k' ≠ k) : getKey (setKey l k v) k' = getKey l k' := by
  have h' : ¬k = k' := fun hk => h hk.symm
  induction l with
  | nil => simp [setKey, getKey, h']
  | cons hd tl ih =>
    obtain ⟨k0, v0⟩ := hd
    by_cases h0 : k0 = k
    · subst h0
      simp [setKey, getKey, h']
    · by_cases h1 : k0 = k'
      · simp [setKey, getKey, h0, h1, h]
      · simp [setKey, getKey, h0, h1, ih]

/-! ### Lemmas: session-list lookup and update -/

theorem lookupById_eq_none {l : List SessionEntry} {tgt : String} :
    lookupById l tgt = none ↔ tgt ∉ l.map SessionEntry.id := by
  induction l with
  | nil => simp [lookupById]
  | cons e rest ih =>
    by_cases h : e.id = tgt
    · simp [lookupById, h]
    · simp [lookupById, h, ih, Ne.symm h]

theorem lookupById_isSome_of_mem {l : List SessionEntry} {tgt : String}
    (h : tgt ∈ l.map SessionEntry.id) : ∃ st, lookupById l tgt = some st := by
  cases hl : lookupById l tgt with
  | none => exact absurd h (lookupById_eq_none.mp hl)
  | some st => exact ⟨st, rfl⟩

theorem lookupById_append (l1 l2 : List SessionEntry) (tgt : String) :
    lookupById (l1 ++ l2) tgt =
      match lookupById l1 tgt with
      | some x => some x
      | none => lookupById l2 tgt := by
  induction l1 with
  | nil => simp [lookupById]
  | cons e rest ih =>
    by_cases h : e.id = tgt
    · simp [lookupById, h]
    · simp [lookupById, h, ih]

theorem lookupById_append_of_none {l1 : List SessionEntry} {tgt : String}
    (l2 : List SessionEntry) (h : lookupById l1 tgt = none) :
    lookupById (l1 ++ l2) tgt = lookupById l2 tgt := by
  rw [lookupById_append, h]

theorem lookupById_append_of_some {l1 : List SessionEntry} {tgt : String}
    {x : Option String} (l2 : List SessionEntry) (h : lookupById l1 tgt = some x) :
    lookupById (l1 ++ l2) tgt = some x := by
  rw [lookupById_append, h]

theorem map_pyInsert {α β : Type} (f : α → β) (k : Nat) (a : α) (l : List α) :
    (pyInsert k a l).map f = pyInsert k (f a) (l.map f) := by
  simp [pyInsert, List.map_take, List.map_drop]

theorem mem_pyInsert {α : Type} {k : Nat} {e : α} {l : List α} (a : α) :
    a ∈ pyInsert k e l ↔ a = e ∨ a ∈ l := by
  have hsplit : l.take k ++ l.drop k = l := List.take_append_drop k l
  constructor
  · intro h
    rcases List.mem_append.mp h with h1 | h1
    · exact Or.inr (by rw [← hsplit]; exact List.mem_append.mpr (Or.inl h1))
    · rcases List.mem_cons.mp h1 with h2 | h2
      · exact Or.inl h2
      · exact Or.inr (by rw [← hsplit]; exact List.mem_append.mpr (Or.inr h2))
  · intro h
    rcases h with h1 | h1
    · exact List.mem_append.mpr (Or.inr (List.mem_cons.mpr (Or.inl h1)))
    · rw [← hsplit] at h1
      rcases List.mem_append.mp h1 with h2 | h2
      · exact List.mem_append.mpr (Or.inl h2)
      · exact List.mem_append.mpr (Or.inr (List.mem_cons.mpr (Or.inr h2)))

theorem lookupById_pyInsert_ne {e : SessionEntry} {tgt : String} (h : e.id ≠ tgt)
    (k : Nat) (l : List SessionEntry) :
    lookupById (pyInsert k e l) tgt = lookupById l tgt := by
  unfold pyInsert
  rw [lookupById_append]
  conv_rhs => rw [← List.take_append_drop k l, lookupById_append]
  cases hlk : lookupById (l.take k) tgt with
  | some x => rfl
  | none => simp [lookupById, h]

theorem lookupById_pyInsert_self {e : SessionEntry} {tgt : String} {l : List SessionEntry}
    (hmem : tgt ∉ l.map SessionEntry.id) (he : e.id = tgt) (k : Nat) :
    lookupById (pyInsert k e l) tgt = some e.status := by
  unfold pyInsert
  rw [lookupById_append]
  have htake : lookupById (l.take k) tgt = none := by
    refine lookupById_eq_none.mpr fun hc => hmem ?_
    rw [List.map_take] at hc
    exact List.mem_of_mem_take hc
  simp [htake, lookupById, he]

theorem map_id_setFirstStatus (l : List SessionEntry) (tgt v : String) :
    (setFirstStatus l tgt v).map SessionEntry.id = l.map SessionEntry.id := by
  induction l with
  | nil => rfl
  | cons e rest ih =>
    by_cases h : e.id = tgt
    · simp [setFirstStatus, h]
    · simp [setFirstStatus, h, ih]

theorem lookupById_setFirstStatus_self (l : List SessionEntry) (tgt v : String) :
    lookupById (setFirstStatus l tgt v) tgt =
      (lookupById l tgt).map fun _ => some v := by
  induction l with
  | nil => rfl
  | cons e rest ih =>
    by_cases h : e.id = tgt
    · simp [setFirstStatus, lookupById, h]
    · simp [setFirstStatus, lookupById, h, ih]

theorem lookupById_setFirstStatus_ne {tgt tgt' : String} (l : List SessionEntry)
    (v : String) (h : tgt' ≠ tgt) :
    lookupById (setFirstStatus l tgt v) tgt' = lookupById l tgt' := by
  induction l with
  | nil => rfl
  | cons e rest ih =>
    have h' : ¬tgt = tgt' := fun hk => h hk.symm
    by_cases h1 : e.id = tgt
    · have h2 : e.id ≠ tgt' := by rw [h1]; exact Ne.symm h
      simp [setFirstStatus, lookupById, h1, h2, h']
    · by_cases h2 : e.id = tgt'
      · simp [setFirstStatus, lookupById, h1, h2, h]
      · simp [setFirstStatus, lookupById, h1, h2, ih]

theorem setFirstStatus_eq_self {l : List SessionEntry} {tgt v : String}
    (h : lookupById l tgt = some (some v)) : setFirstStatus l tgt v = l := by
  induction l with
  | nil => rfl
  | cons e rest ih =>
    by_cases h1 : e.id = tgt
    · have h2 : e.status = some v := by
        simp only [lookupById, if_pos h1, Option.some.injEq] at h
        exact h
      obtain ⟨id0, name0, status0⟩ := e
      simp only at h2
      have h1' : id0 = tgt := h1
      simp [setFirstStatus, h1', h2]
    · simp only [lookupById, if_neg h1] at h
      simp [setFirstStatus, h1, ih h]

theorem setFirstStatus_eq_self_of_none {l : List SessionEntry} {tgt : String}
    (v : String) (h : lookupById l tgt = none) : setFirstStatus l tgt v = l := by
  induction l with
  | nil => rfl
  | cons e rest ih =>
    by_cases h1 : e.id = tgt
    · simp [lookupById, h1] at h
    · simp only [lookupById, if_neg h1] at h
      simp [setFirstStatus, h1, ih h]

/-! ### Lemmas: the gap-filling fold -/

theorem mem_map_id_fillStep (stat : Nat → String) (ids : List String)
    (acc : List SessionEntry) (i : Nat) {tgt : String}
    (h : tgt ∈ acc.map SessionEntry.id) :
    tgt ∈ (fillStep stat ids acc i).map SessionEntry.id := by
  unfold fillStep
  by_cases hc : sid i ∈ ids
  · rwa [if_pos hc]
  · rw [if_neg hc, map_pyInsert]
    exact (mem_pyInsert tgt).mpr (Or.inr h)

theorem mem_map_id_foldl (stat : Nat → String) (ids : List String) :
    ∀ (is : List Nat) (acc : List SessionEntry) (tgt : String),
      tgt ∈ acc.map SessionEntry.id →
      tgt ∈ ((is.foldl (fillStep stat ids) acc).map SessionEntry.id) := by
  intro is
  induction is with
  | nil => intro acc tgt h; exact h
  | cons i is ih =>
    intro acc tgt h
    rw [List.foldl_cons]
    exact ih _ _ (mem_map_id_fillStep stat ids acc i h)

theorem map_id_foldl_subset (stat : Nat → String) (ids : List String) :
    ∀ (is : List Nat) (acc : List SessionEntry) (tgt : String),
      tgt ∈ ((is.foldl (fillStep stat ids) acc).map SessionEntry.id) →
      tgt ∈ acc.map SessionEntry.id ∨ ∃ i ∈ is, tgt = sid i := by
  intro is
  induction is with
  | nil => intro acc tgt h; exact Or.inl h
  | cons i is ih =>
    intro acc tgt h
    rw [List.foldl_cons] at h
    rcases ih _ _ h with h1 | ⟨j, hj, hje⟩
    · unfold fillStep at h1
      by_cases hc : sid i ∈ ids
      · rw [if_pos hc] at h1
        exact Or.inl h1
      · rw [if_neg hc, map_pyInsert] at h1
        rcases (mem_pyInsert tgt).mp h1 with h2 | h2
        · exact Or.inr ⟨i, List.mem_cons_self i is, h2⟩
        · exact Or.inl h2
    · exact Or.inr ⟨j, List.mem_cons_of_mem i hj, hje⟩

theorem lookupById_foldl_not_sid (stat : Nat → String) (ids : List String)
    {j : Nat} (hj : 0 < j) :
    ∀ (is : List Nat) (acc : List SessionEntry),
      (∀ i ∈ is, 0 < i ∧ i ≠ j) →
      lookupById (is.foldl (fillStep stat ids) acc) (sid j) =
        lookupById acc (sid j) := by
  intro is
  induction is with
  | nil => intro acc _; rfl
  | cons i is ih =>
    intro acc hall
    rw [List.foldl_cons, ih _ fun i' hi' => hall i' (List.mem_cons_of_mem i hi')]
    unfold fillStep
    by_cases hc : sid i ∈ ids
    · rw [if_pos hc]
    · rw [if_neg hc]
      have hii := hall i (List.mem_cons_self i is)
      exact lookupById_pyInsert_ne (sid_ne hii.1 hj hii.2) _ _

theorem sid_mem_fillMissing (stat : Nat → String) :
    ∀ (n : Nat) (l : List SessionEntry) (j : Nat), 1 ≤ j → j ≤ n →
      sid j ∈ (fillMissing stat n l).map SessionEntry.id := by
  intro n
  induction n with
  | zero => intro l j h1 h2; exact absurd (h1.trans h2) (by norm_num)
  | succ n ih =>
    intro l j h1 h2
    unfold fillMissing
    rw [List.range'_1_concat, List.foldl_append, List.foldl_cons, List.foldl_nil]
    by_cases hj : j ≤ n
    · refine mem_map_id_fillStep _ _ _ _ ?_
      have := ih l j h1 hj
      simpa [fillMissing] using this
    · have hj' : j = 1 + n := by omega
      subst hj'
      unfold fillStep
      by_cases hc : sid (1 + n) ∈ l.map SessionEntry.id
      · rw [if_pos hc]
        exact mem_map_id_foldl _ _ _ _ _ hc
      · rw [if_neg hc, map_pyInsert]
        exact (mem_pyInsert _).mpr (Or.inl rfl)

theorem fillMissing_eq_self (stat : Nat → String) (n : Nat) (l : List SessionEntry)
    (h : ∀ j, 1 ≤ j → j ≤ n → sid j ∈ l.map SessionEntry.id) :
    fillMissing stat n l = l := by
  have general : ∀ is : List Nat, (∀ i ∈ is, sid i ∈ l.map SessionEntry.id) →
      is.foldl (fillStep stat (l.map SessionEntry.id)) l = l := by
    intro is
    induction is with
    | nil => intro _; rfl
    | cons i is ih =>
      intro hall
      rw [List.foldl_cons]
      have hstep : fillStep stat (l.map SessionEntry.id) l i = l := by
        unfold fillStep
        rw [if_pos (hall i (List.mem_cons_self i is))]
      rw [hstep]
      exact ih fun i' hi' => hall i' (List.mem_cons_of_mem i hi')
  refine general _ fun i hi => ?_
  rw [List.mem_range'_1] at hi
  exact h i hi.1 (by omega)

theorem lookupById_fillMissing (stat : Nat → String) :
    ∀ (n : Nat) (l : List SessionEntry) (j : Nat), 1 ≤ j → j ≤ n →
      lookupById (fillMissing stat n l) (sid j) =
        match lookupById l (sid j) with
        | some st => some st
        | none => some (some (stat j)) := by
  intro n
  induction n with
  | zero => intro l j h1 h2; exact absurd (h1.trans h2) (by norm_num)
  | succ n ih =>
    intro l j h1 h2
    unfold fillMissing
    rw [List.range'_1_concat, List.foldl_append, List.foldl_cons, List.foldl_nil]
    by_cases hj : j ≤ n
    · have ihj := ih l j h1 hj
      rw [fillMissing] at ihj
      simp only [fillStep]
      by_cases hc : sid (1 + n) ∈ l.map SessionEntry.id
      · rw [if_pos hc]
        exact ihj
      · rw [if_neg hc]
        rw [lookupById_pyInsert_ne (sid_ne (by omega) (by omega) (by omega)) _ _]
        exact ihj
    · have hj' : j = 1 + n := by omega
      subst hj'
      simp only [fillStep]
      by_cases hc : sid (1 + n) ∈ l.map SessionEntry.id
      · rw [if_pos hc]
        have hlk : lookupById ((List.range' 1 n).foldl
            (fillStep stat (l.map SessionEntry.id)) l) (sid (1 + n)) =
            lookupById l (sid (1 + n)) := by
          refine lookupById_foldl_not_sid stat _ (by omega) _ _ fun i hi => ?_
          rw [List.mem_range'_1] at hi
          exact ⟨by omega, by omega⟩
        rw [hlk]
        obtain ⟨st, hst⟩ := lookupById_isSome_of_mem hc
        rw [hst]
      · rw [if_neg hc]
        have hnot : sid (1 + n) ∉ ((List.range' 1 n).foldl
            (fillStep stat (l.map SessionEntry.id)) l).map SessionEntry.id := by
          intro hmem
          rcases map_id_foldl_subset _ _ _ _ _ hmem with hx | ⟨i, hi, hie⟩
          · exact hc hx
          · rw [List.mem_range'_1] at hi
            have := sid_inj (by omega) (by omega) hie
            omega
        rw [lookupById_pyInsert_self hnot rfl]
        rw [lookupById_eq_none.mpr hc]

/-! ### Lemmas: the freshly built session lists -/

theorem lookupById_map_range' (g : Nat → SessionEntry) (hg : ∀ i, (g i).id = sid i) :
    ∀ (m : Nat) {j : Nat}, 1 ≤ j →
      lookupById ((List.range' 1 m).map g) (sid j) =
        if j ≤ m then some (g j).status else none := by
  intro m
  induction m with
  | zero =>
    intro j hj
    rw [if_neg (by omega)]
    rfl
  | succ m ih =>
    intro j hj
    rw [List.range'_1_concat, List.map_append]
    by_cases hjm : j ≤ m
    · have hpre := ih (j := j) hj
      rw [if_pos hjm] at hpre
      rw [lookupById_append_of_some _ hpre, if_pos (by omega)]
    · have hpre := ih (j := j) hj
      rw [if_neg hjm] at hpre
      rw [lookupById_append_of_none _ hpre]
      by_cases hje : j = 1 + m
      · subst hje
        simp only [List.map_cons, List.map_nil, lookupById]
        rw [if_pos (hg (1 + m)), if_pos (by omega)]
      · simp only [List.map_cons, List.map_nil, lookupById]
        rw [hg (1 + m), if_neg (sid_ne (by omega) (by omega) (by omega)),
          if_neg (by omega)]

theorem sid_mem_map_range' (g : Nat → SessionEntry) (hg : ∀ i, (g i).id = sid i)
    (m : Nat) {j : Nat} (hj : 1 ≤ j) :
    sid j ∈ (((List.range' 1 m).map g).map SessionEntry.id) ↔ j ≤ m := by
  constructor
  · intro h
    by_contra hle
    obtain ⟨st, hst⟩ := lookupById_isSome_of_mem h
    rw [lookupById_map_range' g hg m hj, if_neg hle] at hst
    exact Option.noConfusion hst
  · intro h
    by_contra hmem
    have hnone := lookupById_eq_none.mpr hmem
    rw [lookupById_map_range' g hg m hj, if_pos h] at hnone
    exact Option.noConfusion hnone

theorem scanFresh_eq_map (legacy : Option String) {n : Nat} (hn : 1 ≤ n) :
    scanFresh legacy n = (List.range' 1 n).map
      (fun i => ⟨sid i, qrName i, some (if i = n then "P" else dbFreshStatus legacy i)⟩) := by
  obtain ⟨m, rfl⟩ : ∃ m, n = m + 1 := ⟨n - 1, by omega⟩
  unfold scanFresh
  rw [show m + 1 - 1 = m from rfl, List.range'_1_concat, List.map_append]
  congr 1
  · refine List.map_congr_left fun i hi => ?_
    rw [List.mem_range'_1] at hi
    rw [if_neg (show ¬i = m + 1 by omega)]
  · simp only [List.map_cons, List.map_nil]
    rw [show 1 + m = m + 1 by omega, if_pos rfl]

theorem lookupById_scanFresh_n (legacy : Option String) {n : Nat} (hn : 1 ≤ n) :
    lookupById (scanFresh legacy n) (sid n) = some (some "P") := by
  rw [scanFresh_eq_map legacy hn,
    lookupById_map_range' _ (fun i => rfl) n hn, if_pos (Nat.le_refl n)]
  simp

theorem sid_mem_scanFresh (legacy : Option String) {n j : Nat} (hn : 1 ≤ n)
    (h1 : 1 ≤ j) (h2 : j ≤ n) :
    sid j ∈ (scanFresh legacy n).map SessionEntry.id := by
  rw [scanFresh_eq_map legacy hn]
  exact (sid_mem_map_range' _ (fun i => rfl) n h1).mpr h2

theorem sid_mem_stopFresh (legacy : Option String) {n j : Nat}
    (h1 : 1 ≤ j) (h2 : j ≤ n) :
    sid j ∈ (stopFresh legacy n).map SessionEntry.id :=
  (sid_mem_map_range' _ (fun i => rfl) n h1).mpr h2

theorem lookupById_stopFresh (legacy : Option String) {n j : Nat} (h1 : 1 ≤ j) :
    lookupById (stopFresh legacy n) (sid j) =
      if j ≤ n then some (some (dbFreshStatus legacy j)) else none :=
  lookupById_map_range' _ (fun i => rfl) n h1

theorem mongoFreshStatus_eq (legacy : Option String) {n i : Nat} (hn : 2 ≤ n)
    (h1 : 1 ≤ i) (h2 : i < 1 + n) :
    mongoFreshStatus legacy n i = if i = n then "P" else dbFreshStatus legacy i := by
  cases legacy with
  | none =>
    simp only [mongoFreshStatus, dbFreshStatus]
    by_cases hin : i = n
    · subst hin
      rw [if_neg (by omega), if_pos rfl]
    · rw [if_pos (by omega), if_neg hin]
  | some s =>
    simp only [mongoFreshStatus, dbFreshStatus]
    by_cases hi1 : i = 1
    · subst hi1
      rw [if_pos rfl, if_neg (by omega), if_pos rfl]
    · rw [if_neg hi1]
      by_cases hin : i = n
      · subst hin
        rw [if_neg (by omega), if_pos rfl]
      · rw [if_pos (by omega), if_neg hin, if_neg hi1]

theorem mongoScanFresh_eq_scanFresh (legacy : Option String) {n : Nat} (hn : 2 ≤ n) :
    mongoScanFresh legacy n = scanFresh legacy n := by
  rw [scanFresh_eq_map legacy (by omega)]
  unfold mongoScanFresh
  refine List.map_congr_left fun i hi => ?_
  rw [List.mem_range'_1] at hi
  rw [mongoFreshStatus_eq legacy hn hi.1 hi.2]

theorem mongo_scan_eq_db_scan {n : Nat} (hn : 2 ≤ n) (t : Nat) (cur : Option Cell) :
    Mongo.scanCellUpdate t n cur = Db.scanCellUpdate t n cur := by
  unfold Mongo.scanCellUpdate Db.scanCellUpdate
  simp only [if_neg (show ¬n = 1 by omega)]
  cases cur with
  | none =>
    show Cell.sessionsObj (mongoScanFresh none n) t = Cell.sessionsObj (scanFresh none n) t
    rw [mongoScanFresh_eq_scanFresh _ hn]
  | some c =>
    cases c with
    | simple s =>
      show Cell.sessionsObj (mongoScanFresh (some s) n) t =
        Cell.sessionsObj (scanFresh (some s) n) t
      rw [mongoScanFresh_eq_scanFresh _ hn]
    | counted st cnt => rfl
    | sessionsObj l ts => rfl
    | other => rfl

/-! ### Idempotence of the update paths -/

theorem scan_dict_sid_mem (n : Nat) (l : List SessionEntry) {j : Nat}
    (h1 : 1 ≤ j) (h2 : j ≤ n) :
    sid j ∈ (setFirstStatus (fillMissing (scanFillStat n) n l) (sid n) "P").map
      SessionEntry.id := by
  rw [map_id_setFirstStatus]
  exact sid_mem_fillMissing _ n l j h1 h2

theorem scan_dict_lookup_n (n : Nat) (l : List SessionEntry) (hn : 1 ≤ n) :
    lookupById (setFirstStatus (fillMissing (scanFillStat n) n l) (sid n) "P")
      (sid n) = some (some "P") := by
  rw [lookupById_setFirstStatus_self]
  obtain ⟨st, hst⟩ :=
    lookupById_isSome_of_mem (sid_mem_fillMissing (scanFillStat n) n l n hn (Nat.le_refl n))
  rw [hst]
  rfl

theorem scan_dict_idem (n : Nat) (l : List SessionEntry) (hn : 1 ≤ n) :
    setFirstStatus
      (fillMissing (scanFillStat n) n
        (setFirstStatus (fillMissing (scanFillStat n) n l) (sid n) "P"))
      (sid n) "P" =
    setFirstStatus (fillMissing (scanFillStat n) n l) (sid n) "P" := by
  rw [fillMissing_eq_self _ _ _ fun j h1 h2 => scan_dict_sid_mem n l h1 h2]
  exact setFirstStatus_eq_self (scan_dict_lookup_n n l hn)

theorem db_scan_idem (t n : Nat) (hn : 1 ≤ n) (cur : Option Cell) :
    Db.scanCellUpdate t n (some (Db.scanCellUpdate t n cur)) =
      Db.scanCellUpdate t n cur := by
  by_cases hn1 : n = 1
  · subst hn1
    cases cur with
    | none => rfl
    | some c =>
      cases c with
      | simple s => rfl
      | counted st cnt => rfl
      | other => rfl
      | sessionsObj l ts =>
        cases l with
        | nil => rfl
        | cons e rest =>
          obtain ⟨i0, nm0, st0⟩ := e
          rfl
  · unfold Db.scanCellUpdate
    simp only [if_neg hn1]
    cases cur with
    | none =>
      show Cell.sessionsObj (setFirstStatus (fillMissing (scanFillStat n) n
        (scanFresh none n)) (sid n) "P") t = Cell.sessionsObj (scanFresh none n) t
      rw [fillMissing_eq_self _ _ _ fun j h1 h2 =>
        sid_mem_scanFresh none (by omega) h1 h2]
      rw [setFirstStatus_eq_self (lookupById_scanFresh_n none (by omega))]
    | some c =>
      cases c with
      | simple s =>
        show Cell.sessionsObj (setFirstStatus (fillMissing (scanFillStat n) n
          (scanFresh (some s) n)) (sid n) "P") t =
          Cell.sessionsObj (scanFresh (some s) n) t
        rw [fillMissing_eq_self _ _ _ fun j h1 h2 =>
          sid_mem_scanFresh (some s) (by omega) h1 h2]
        rw [setFirstStatus_eq_self (lookupById_scanFresh_n (some s) (by omega))]
      | counted st cnt => rfl
      | other => rfl
      | sessionsObj l ts =>
        show Cell.sessionsObj (setFirstStatus (fillMissing (scanFillStat n) n
          (setFirstStatus (fillMissing (scanFillStat n) n l) (sid n) "P")) (sid n) "P") t =
          Cell.sessionsObj (setFirstStatus (fillMissing (scanFillStat n) n l) (sid n) "P") t
        rw [scan_dict_idem n l hn]

theorem mongo_scan_idem (t n : Nat) (hn : 1 ≤ n) (cur : Option Cell) :
    Mongo.scanCellUpdate t n (some (Mongo.scanCellUpdate t n cur)) =
      Mongo.scanCellUpdate t n cur := by
  by_cases hn1 : n = 1
  · subst hn1
    rfl
  · rw [mongo_scan_eq_db_scan (by omega) t cur,
      mongo_scan_eq_db_scan (by omega) t (some (Db.scanCellUpdate t n cur))]
    exact db_scan_idem t n hn cur

theorem stop_idem (t n : Nat) (hn : 1 ≤ n) (cur : Option Cell) :
    stopCellUpdate t n (some (stopCellUpdate t n cur)) = stopCellUpdate t n cur := by
  by_cases hn1 : n = 1
  · subst hn1
    rfl
  · unfold stopCellUpdate
    simp only [if_neg hn1]
    cases cur with
    | none =>
      show Cell.sessionsObj (fillMissing (fun _ => "A") n (stopFresh none n)) t =
        Cell.sessionsObj (stopFresh none n) t
      rw [fillMissing_eq_self _ _ _ fun j h1 h2 => sid_mem_stopFresh none h1 h2]
    | some c =>
      cases c with
      | simple s =>
        show Cell.sessionsObj (fillMissing (fun _ => "A") n (stopFresh (some s) n)) t =
          Cell.sessionsObj (stopFresh (some s) n) t
        rw [fillMissing_eq_self _ _ _ fun j h1 h2 => sid_mem_stopFresh (some s) h1 h2]
      | counted st cnt => rfl
      | other => rfl
      | sessionsObj l ts =>
        show Cell.sessionsObj (fillMissing (fun _ => "A") n
          (fillMissing (fun _ => "A") n l)) t =
          Cell.sessionsObj (fillMissing (fun _ => "A") n l) t
        rw [fillMissing_eq_self _ _ _ fun j h1 h2 =>
          sid_mem_fillMissing (fun _ => "A") n l j h1 h2]

/-! ### Claim C2 -/

/-- The shapes the scan merge actually rebuilds: an empty cell, a
legacy-simple string, or a canonical-sessions object.  Legacy-counted and
unrecognized values match no branch of the source merge. -/
def mergeable : Option Cell → Prop
  | some (.counted _ _) => False
  | some .other => False
  | _ => True

/-- The decoded original's entry for id `session_i`: a legacy-simple cell
is its own implicit session 1; a canonical cell is looked up by id. -/
def origLookup (cur : Option Cell) (i : Nat) : Option (Option String) :=
  match cur with
  | some (.sessionsObj l _) => lookupById l (sid i)
  | some (.simple s) => if i = 1 then some (some s) else none
  | _ => none

/-- Whether a cell value is a canonical-sessions object. -/
def Cell.isSessionsShape : Cell → Bool
  | .sessionsObj _ _ => true
  | _ => false

/-- C2 (amended): for session numbers n > 1 the scan update of both
backends turns an empty, legacy-simple or canonical cell into a
canonical-sessions object holding every id `session_1..session_n`; ids
present in the original keep their status, missing ids are synthesized
with status `A` — except a missing `session_1` over a legacy-simple cell,
which inherits the legacy status — and `session_n` is set to the verdict
`P`.  A legacy-counted cell, however, is left entirely unchanged (the
source merge has no branch for it).  Applying the update at session 3 to
an empty cell yields statuses `[A, A, P]`. -/
theorem c2_absence_backfill (t n : Nat) (cur : Option Cell) (hn : 2 ≤ n)
    (hc : mergeable cur) :
    (∃ l, Db.scanCellUpdate t n cur = .sessionsObj l t ∧
          Mongo.scanCellUpdate t n cur = .sessionsObj l t ∧
          ∀ i, 1 ≤ i → i ≤ n →
            lookupById l (sid i) =
              if i = n then some (some "P")
              else
                match origLookup cur i with
                | some st => some st
                | none => some (some "A")) ∧
    (∀ st cnt, Db.scanCellUpdate t n (some (.counted st cnt)) = .counted st cnt ∧
               Mongo.scanCellUpdate t n (some (.counted st cnt)) = .counted st cnt) ∧
    Db.scanCellUpdate t 3 none =
      .sessionsObj [⟨sid 1, qrName 1, some "A"⟩, ⟨sid 2, qrName 2, some "A"⟩,
        ⟨sid 3, qrName 3, some "P"⟩] t := by
  refine ⟨?_, ?_, ?_⟩
  · cases cur with
    | none =>
      refine ⟨scanFresh none n, ?_, ?_, ?_⟩
      · show (if n = 1 then _ else _) = _
        rw [if_neg (by omega)]
      · rw [mongo_scan_eq_db_scan hn]
        show (if n = 1 then _ else _) = _
        rw [if_neg (by omega)]
      · intro i h1 h2
        rw [scanFresh_eq_map none (by omega),
          lookupById_map_range' _ (fun _ => rfl) n h1, if_pos h2]
        by_cases hin : i = n
        · rw [if_pos hin, if_pos hin]
        · rw [if_neg hin, if_neg hin]
          rfl
    | some c =>
      cases c with
      | simple s =>
        refine ⟨scanFresh (some s) n, ?_, ?_, ?_⟩
        · show (if n = 1 then _ else _) = _
          rw [if_neg (by omega)]
        · rw [mongo_scan_eq_db_scan hn]
          show (if n = 1 then _ else _) = _
          rw [if_neg (by omega)]
        · intro i h1 h2
          rw [scanFresh_eq_map (some s) (by omega),
            lookupById_map_range' _ (fun _ => rfl) n h1, if_pos h2]
          by_cases hin : i = n
          · rw [if_pos hin, if_pos hin]
          · rw [if_neg hin, if_neg hin]
            by_cases hi1 : i = 1
            · subst hi1
              simp [dbFreshStatus, origLookup]
            · simp [dbFreshStatus, origLookup, hi1]
      | counted st cnt => exact absurd hc (by simp [mergeable])
      | other => exact absurd hc (by simp [mergeable])
      | sessionsObj l0 ts =>
        refine ⟨setFirstStatus (fillMissing (scanFillStat n) n l0) (sid n) "P", ?_, ?_, ?_⟩
        · show (if n = 1 then _ else _) = _
          rw [if_neg (by omega)]
        · rw [mongo_scan_eq_db_scan hn]
          show (if n = 1 then _ else _) = _
          rw [if_neg (by omega)]
        · intro i h1 h2
          by_cases hin : i = n
          · subst hin
            rw [if_pos rfl]
            exact scan_dict_lookup_n i l0 (by omega)
          · rw [if_neg hin,
              lookupById_setFirstStatus_ne _ _ (sid_ne (by omega) (by omega) hin),
              lookupById_fillMissing (scanFillStat n) n l0 i h1 h2]
            simp only [origLookup]
            cases hl : lookupById l0 (sid i) with
            | none => simp [hl, scanFillStat, hin]
            | some st => simp [hl]
  · intro st cnt
    constructor
    · show (if n = 1 then _ else _) = _
      rw [if_neg (by omega)]
    · show (if n = 1 then _ else _) = _
      rw [if_neg (by omega)]
  · rfl

/-- C2 counterexample: the claim quantifies over every AttendanceCell,
but a legacy-counted cell is left unchanged by the scan update — the
result is not a canonical-sessions object with ids `session_1..3` at
all. -/
theorem c2_counterexample :
    Db.scanCellUpdate 0 3 (some (.counted (some "P") (some 2))) =
      .counted (some "P") (some 2) ∧
    (Db.scanCellUpdate 0 3 (some (.counted (some "P") (some 2)))).isSessionsShape
      = false :=
  ⟨rfl, rfl⟩

/-- C2 witness: the amended theorem applied at session 3 over an empty
cell. -/
theorem c2_absence_backfill_witness :
    (∃ l, Db.scanCellUpdate 0 3 none = .sessionsObj l 0 ∧
          Mongo.scanCellUpdate 0 3 none = .sessionsObj l 0 ∧
          ∀ i, 1 ≤ i → i ≤ 3 →
            lookupById l (sid i) =
              if i = 3 then some (some "P")
              else
                match origLookup none i with
                | some st => some st
                | none => some (some "A")) ∧
    (∀ st cnt, Db.scanCellUpdate 0 3 (some (.counted st cnt)) = .counted st cnt ∧
               Mongo.scanCellUpdate 0 3 (some (.counted st cnt)) = .counted st cnt) ∧
    Db.scanCellUpdate 0 3 none =
      .sessionsObj [⟨sid 1, qrName 1, some "A"⟩, ⟨sid 2, qrName 2, some "A"⟩,
        ⟨sid 3, qrName 3, some "P"⟩] 0 :=
  c2_absence_backfill 0 3 none (by decide) trivial

/-! ### Claim C3 -/

/-- C3 (amended): at session number 1 the file-based backend overwrites
as the claim states — a legacy-simple cell is replaced wholesale by the
verdict and only the head entry's status of a canonical cell is
overwritten, the tail preserved — but the MongoDB backend replaces the
cell wholesale with the verdict whatever its shape, discarding any other
session entries. -/
theorem c3_session1_overwrite (t : Nat) :
    (∀ s : String, Db.scanCellUpdate t 1 (some (.simple s)) = .simple "P") ∧
    (∀ (e : SessionEntry) (rest : List SessionEntry) (ts : Nat),
      Db.scanCellUpdate t 1 (some (.sessionsObj (e :: rest) ts)) =
        .sessionsObj ({ e with status := some "P" } :: rest) t) ∧
    (∀ c : Cell, Mongo.scanCellUpdate t 1 (some c) = .simple "P") :=
  ⟨fun _ => rfl, fun _ _ _ => rfl, fun _ => rfl⟩

/-- C3 counterexample: a canonical cell holding sessions 1 and 2 is
replaced wholesale by `'P'` by the MongoDB backend's session-1 scan; the
result is not a canonical-sessions object, so session 2 is not
preserved. -/
theorem c3_counterexample :
    Mongo.scanCellUpdate 5 1
        (some (.sessionsObj [⟨"session_1", "Session 1", some "A"⟩,
          ⟨"session_2", "Session 2", some "P"⟩] 0)) = .simple "P" ∧
    (Mongo.scanCellUpdate 5 1
        (some (.sessionsObj [⟨"session_1", "Session 1", some "A"⟩,
          ⟨"session_2", "Session 2", some "P"⟩] 0))).isSessionsShape = false :=
  ⟨rfl, rfl⟩

/-! ### Claim C4 -/

/-- C4: the verdict applications implemented by the code — the scan
updates (verdict P) of both backends and the shared stop update
(verdict A) — are idempotent at every session number `n ≥ 1` and over
every cell value: entries are looked up by id before inserting, so
re-running never duplicates session entries.  Both applications are taken
at the same write timestamp `t`, since the cell records the wall-clock
`updated_at` of its last write. -/
theorem c4_idempotence (t n : Nat) (cur : Option Cell) (hn : 1 ≤ n) :
    Db.scanCellUpdate t n (some (Db.scanCellUpdate t n cur)) =
      Db.scanCellUpdate t n cur ∧
    Mongo.scanCellUpdate t n (some (Mongo.scanCellUpdate t n cur)) =
      Mongo.scanCellUpdate t n cur ∧
    stopCellUpdate t n (some (stopCellUpdate t n cur)) = stopCellUpdate t n cur :=
  ⟨db_scan_idem t n hn cur, mongo_scan_idem t n hn cur, stop_idem t n hn cur⟩

/-! ### Claim C1 -/

/-- Well-formedness of a stored legacy-simple cell per the data model
(§3): its status is one of P/A/L.  The other shapes need no condition. -/
def simpleWF : Option Cell → Bool
  | some (.simple s) => s = "P" ∨ s = "A" ∨ s = "L"
  | _ => true

theorem length_filter_map_const {α : Type} (f : α → SessionEntry)
    (p : SessionEntry → Bool) (b : Bool) (hconst : ∀ x, p (f x) = b) :
    ∀ xs : List α, ((xs.map f).filter p).length = if b then xs.length else 0 := by
  intro xs
  induction xs with
  | nil => cases b <;> simp
  | cons x rest ih =>
    rw [List.map_cons, List.filter_cons, hconst x]
    cases b with
    | true => simp only [if_true, List.length_cons, ih, if_true]
    | false => simp only [Bool.false_eq_true, if_false, ih]

theorem db_count_step_eq (date : String) (st : Student)
    (hwf : simpleWF (getKey st.attendance date) = true) (m : Nat) :
    (match getKey st.attendance date with
     | none => m
     | some v =>
       if v.truthy then
         match v with
         | .sessionsObj l _ => max m (l.filter fun e => e.status ≠ none).length
         | .counted st' cnt => if st' ≠ none then max m (cnt.getD 1) else m
         | .simple _ => max m 1
         | .other => m
       else m)
    = max m (Spec.validCount (getKey st.attendance date)) := by
  cases hv : getKey st.attendance date with
  | none => simp [Spec.validCount, Spec.decode]
  | some v =>
    cases v with
    | simple s =>
      rw [hv] at hwf
      have hpal : s = "P" ∨ s = "A" ∨ s = "L" := by simpa [simpleWF] using hwf
      have htr : Cell.truthy (.simple s) = true := by
        simp only [Cell.truthy, ne_eq, decide_not]
        rcases hpal with h | h | h <;> subst h <;> decide
      have hvc : Spec.validCount (some (.simple s)) = 1 := by
        simp only [Spec.validCount, Spec.decode]
        rw [if_pos hpal]
        rfl
      show (if Cell.truthy (.simple s) = true then max m 1 else m)
        = max m (Spec.validCount (some (.simple s)))
      rw [htr, if_pos rfl, hvc]
    | counted st' cnt =>
      show (if st' ≠ none then max m (cnt.getD 1) else m) = _
      cases st' with
      | none =>
        rw [if_neg (by simp)]
        have h0 : Spec.validCount (some (.counted none cnt)) = 0 := by
          unfold Spec.validCount Spec.decode
          rw [length_filter_map_const _ _ false (fun x => by simp)]
          simp
        rw [h0]
        simp
      | some s' =>
        rw [if_pos (by simp)]
        have h1 : Spec.validCount (some (.counted (some s') cnt)) = cnt.getD 1 := by
          unfold Spec.validCount Spec.decode
          rw [length_filter_map_const _ _ true (fun x => by simp)]
          simp
        rw [h1]
    | sessionsObj l ts =>
      show max m (l.filter fun e => e.status ≠ none).length = _
      have h1 : Spec.validCount (some (.sessionsObj l ts)) =
          (l.filter fun e => e.status ≠ none).length := rfl
      rw [h1]
    | other =>
      show m = _
      have h0 : Spec.validCount (some Cell.other) = 0 := rfl
      rw [h0]
      simp

theorem db_count_fold_eq (date : String) :
    ∀ (l : List Student) (m : Nat),
      (∀ st ∈ l, simpleWF (getKey st.attendance date) = true) →
      l.foldl
        (fun m st =>
          match getKey st.attendance date with
          | none => m
          | some v =>
            if v.truthy then
              match v with
              | .sessionsObj l' _ => max m (l'.filter fun e => e.status ≠ none).length
              | .counted st' cnt => if st' ≠ none then max m (cnt.getD 1) else m
              | .simple _ => max m 1
              | .other => m
            else m) m
      = ((l.map fun st => Spec.validCount (getKey st.attendance date)).foldl max m) := by
  intro l
  induction l with
  | nil => intro m _; rfl
  | cons st rest ih =>
    intro m hall
    rw [List.foldl_cons, List.map_cons, List.foldl_cons,
      db_count_step_eq date st (hall st (List.mem_cons_self st rest)) m]
    exact ih _ fun st' h' => hall st' (List.mem_cons_of_mem st h')

theorem count_valid_eq_spec (cd : ClassDoc) (date : String)
    (hwf : ∀ st ∈ cd.students, simpleWF (getKey st.attendance date) = true) :
    Db.count_valid_sessions_for_date cd date = Spec.maxValidCount cd date := by
  unfold Db.count_valid_sessions_for_date Spec.maxValidCount
  by_cases he : cd.students.isEmpty
  · rw [if_pos he]
    rw [List.isEmpty_iff.mp he]
    rfl
  · rw [if_neg he]
    exact db_count_fold_eq date cd.students 0 hwf

/-- C1 (amended): the number assigned by the file-based backend's
`start_qr_session` is one more than the maximum, over the class's
students, of the valid (non-null-status) count of the decoded cell for the
date — purely from stored attendance; with no students or no data this is
1.  The MongoDB backend instead derives the number from stored QR-session
metadata (see the counterexample). -/
theorem c1_db_numbering_from_attendance (class_id teacher_id date : String)
    (ri : Nat) (cd : ClassDoc) (existing : Option QrSession) (code : String)
    (t : Nat) (r : QrSession)
    (hwf : ∀ st ∈ cd.students, simpleWF (getKey st.attendance date) = true)
    (hok : Db.start_qr_session class_id teacher_id date ri (some cd) existing code t
      = .ok r) :
    r.session_number = Spec.maxValidCount cd date + 1 := by
  have hok' : (if cd.teacher_id ≠ teacher_id then
        (Except.error "Class not found or unauthorized" : Except String QrSession)
      else if cd.enrollment_mode ≠ "enrollment_via_id" then
        Except.error
          "QR attendance is only available for classes with student enrollment via Class ID"
      else if Db.existingActive existing = true then
        Except.error
          "There is already an active QR session for this date. Please stop it first."
      else Except.ok ⟨class_id, teacher_id, date,
        Db.count_valid_sessions_for_date cd date + 1, ri, code, [],
        "active", t, t, none⟩)
      = Except.ok r := hok
  by_cases h1 : cd.teacher_id ≠ teacher_id
  · rw [if_pos h1] at hok'
    exact Except.noConfusion hok'
  · rw [if_neg h1] at hok'
    by_cases h2 : cd.enrollment_mode ≠ "enrollment_via_id"
    · rw [if_pos h2] at hok'
      exact Except.noConfusion hok'
    · rw [if_neg h2] at hok'
      by_cases h3 : Db.existingActive existing = true
      · rw [if_pos h3] at hok'
        exact Except.noConfusion hok'
      · rw [if_neg h3] at hok'
        obtain rfl : (⟨class_id, teacher_id, date,
            Db.count_valid_sessions_for_date cd date + 1, ri, code, [],
            "active", t, t, none⟩ : QrSession) = r := Except.ok.inj hok'
        show Db.count_valid_sessions_for_date cd date + 1 = _
        rw [count_valid_eq_spec cd date hwf]

/-- C1 witness: a class with one student whose cell for the date is the
legacy-simple string `P` (valid count 1) gets session number 2. -/
theorem c1_db_numbering_from_attendance_witness :
    (⟨"c1", "t1", "2024-05-01", 2, 5, "CODE", [], "active", 9, 9, none⟩
        : QrSession).session_number =
      Spec.maxValidCount
        ⟨"t1", "enrollment_via_id", none,
          [⟨"r1", "1", "Stu", "s@e", [("2024-05-01", .simple "P")]⟩],
          ⟨1, 0, 0, 0, none⟩⟩ "2024-05-01" + 1 :=
  c1_db_numbering_from_attendance "c1" "t1" "2024-05-01" 5
    ⟨"t1", "enrollment_via_id", none,
      [⟨"r1", "1", "Stu", "s@e", [("2024-05-01", .simple "P")]⟩],
      ⟨1, 0, 0, 0, none⟩⟩ none "CODE" 9
    ⟨"c1", "t1", "2024-05-01", 2, 5, "CODE", [], "active", 9, 9, none⟩
    (by decide) rfl

/-- C1 counterexample: the MongoDB backend numbers a fresh session from
QR-session metadata, not from stored attendance.  With a stored stopped
session numbered 1 for the (class, date) and a class whose attendance
holds no data at all for the date, it assigns 2 where the
attendance-derived number of the claim is 1. -/
theorem c1_counterexample :
    Mongo.start_qr_session "c1" "t1" "2024-05-01" 5
        [⟨"c1", "t1", "2024-05-01", 1, 5, "OLD", [], "stopped", 0, 0, some 3⟩]
        "NEW" 20
      = .ok ⟨"c1", "t1", "2024-05-01", 2, 5, "NEW", [], "active", 20, 20, none⟩ ∧
    Spec.maxValidCount
        ⟨"t1", "enrollment_via_id", none, [⟨"r1", "1", "Stu", "s@e", []⟩],
          ⟨1, 0, 0, 0, none⟩⟩ "2024-05-01" + 1 = 1 ∧
    (2 : Nat) ≠ 1 := by
  refine ⟨rfl, by decide, by decide⟩

/-! ### Claim C8 -/

/-- Whether an operation was rejected. -/
def isErr {α : Type} : Except String α → Bool
  | .error _ => true
  | .ok _ => false

theorem db_start_reduce (class_id teacher_id date : String) (ri : Nat)
    (cd : ClassDoc) (existing : Option QrSession) (code : String) (t : Nat) :
    Db.start_qr_session class_id teacher_id date ri (some cd) existing code t =
      (if cd.teacher_id ≠ teacher_id then
        .error "Class not found or unauthorized"
      else if cd.enrollment_mode ≠ "enrollment_via_id" then
        .error
          "QR attendance is only available for classes with student enrollment via Class ID"
      else if Db.existingActive existing then
        .error
          "There is already an active QR session for this date. Please stop it first."
      else .ok ⟨class_id, teacher_id, date,
        Db.count_valid_sessions_for_date cd date + 1, ri, code, [],
        "active", t, t, none⟩) := rfl

theorem mongo_start_reduce (class_id teacher_id date : String) (ri : Nat)
    (store : List QrSession) (code : String) (t : Nat) :
    Mongo.start_qr_session class_id teacher_id date ri store code t =
      (if (store.filter fun s => decide (s.class_id = class_id ∧ s.date = date)).any
          (fun s => s.status = "active") then
        .error "An active QR session already exists for this date"
      else .ok ⟨class_id, teacher_id, date,
        Mongo.next_session_number
          (store.filter fun s => decide (s.class_id = class_id ∧ s.date = date)),
        ri, code, [], "active", t, t, none⟩) := rfl

/-- C8 (amended): the file-based backend rejects a start both when an
active QR session already exists for the (class, date) and when the
class's enrollment mode is not ID-based enrollment.  The MongoDB backend
rejects the duplicate active session, but it performs no enrollment-mode
check at all — its start path never consults the class document — and
silently succeeds for manual-entry classes (see the counterexample). -/
theorem c8_start_rejections (class_id teacher_id date : String) (ri : Nat)
    (cd : ClassDoc) (existing : Option QrSession) (code : String) (t : Nat)
    (store : List QrSession) :
    (cd.enrollment_mode ≠ "enrollment_via_id" →
      isErr (Db.start_qr_session class_id teacher_id date ri (some cd) existing
        code t) = true) ∧
    (Db.existingActive existing = true →
      isErr (Db.start_qr_session class_id teacher_id date ri (some cd) existing
        code t) = true) ∧
    ((store.filter fun s => decide (s.class_id = class_id ∧ s.date = date)).any
        (fun s => s.status = "active") = true →
      isErr (Mongo.start_qr_session class_id teacher_id date ri store code t)
        = true) := by
  refine ⟨?_, ?_, ?_⟩
  · intro hmode
    rw [db_start_reduce]
    by_cases h1 : cd.teacher_id ≠ teacher_id
    · rw [if_pos h1]
      rfl
    · rw [if_neg h1, if_pos hmode]
      rfl
  · intro hact
    rw [db_start_reduce]
    by_cases h1 : cd.teacher_id ≠ teacher_id
    · rw [if_pos h1]
      rfl
    · rw [if_neg h1]
      by_cases h2 : cd.enrollment_mode ≠ "enrollment_via_id"
      · rw [if_pos h2]
        rfl
      · rw [if_neg h2, if_pos hact]
        rfl
  · intro hdup
    rw [mongo_start_reduce, if_pos hdup]
    rfl

/-- C8 witness: a manual-entry class is rejected by the file-based start,
a duplicate active session is rejected by both backends. -/
theorem c8_start_rejections_witness :
    isErr (Db.start_qr_session "c1" "t1" "2024-05-01" 5
      (some ⟨"t1", "manual_entry", none, [], ⟨0, 0, 0, 0, none⟩⟩) none "X" 0) = true ∧
    isErr (Db.start_qr_session "c1" "t1" "2024-05-01" 5
      (some ⟨"t1", "enrollment_via_id", none, [], ⟨0, 0, 0, 0, none⟩⟩)
      (some ⟨"c1", "t1", "2024-05-01", 1, 5, "OLD", [], "active", 0, 0, none⟩)
      "X" 0) = true ∧
    isErr (Mongo.start_qr_session "c1" "t1" "2024-05-01" 5
      [⟨"c1", "t1", "2024-05-01", 1, 5, "OLD", [], "active", 0, 0, none⟩]
      "X" 0) = true :=
  ⟨(c8_start_rejections "c1" "t1" "2024-05-01" 5
      ⟨"t1", "manual_entry", none, [], ⟨0, 0, 0, 0, none⟩⟩ none "X" 0 []).1
      (by decide),
   (c8_start_rejections "c1" "t1" "2024-05-01" 5
      ⟨"t1", "enrollment_via_id", none, [], ⟨0, 0, 0, 0, none⟩⟩
      (some ⟨"c1", "t1", "2024-05-01", 1, 5, "OLD", [], "active", 0, 0, none⟩)
      "X" 0 []).2.1 (by decide),
   (c8_start_rejections "c1" "t1" "2024-05-01" 5
      ⟨"t1", "enrollment_via_id", none, [], ⟨0, 0, 0, 0, none⟩⟩ none "X" 0
      [⟨"c1", "t1", "2024-05-01", 1, 5, "OLD", [], "active", 0, 0, none⟩]).2.2
      (by decide)⟩

/-- C8 counterexample: the MongoDB backend's start takes no class
document and no enrollment-mode input at all, so for a class whose mode
is manual entry it silently succeeds rather than rejecting. -/
theorem c8_counterexample :
    Mongo.start_qr_session "c1" "t1" "2024-05-01" 5 [] "CODE" 7 =
      .ok ⟨"c1", "t1", "2024-05-01", 1, 5, "CODE", [], "active", 7, 7, none⟩ := rfl

/-- C4 witness: idempotence at session 2 over a legacy-simple `L` cell. -/
theorem c4_idempotence_witness :
    Db.scanCellUpdate 7 2 (some (Db.scanCellUpdate 7 2 (some (.simple "L")))) =
      Db.scanCellUpdate 7 2 (some (.simple "L")) ∧
    Mongo.scanCellUpdate 7 2 (some (Mongo.scanCellUpdate 7 2 (some (.simple "L")))) =
      Mongo.scanCellUpdate 7 2 (some (.simple "L")) ∧
    stopCellUpdate 7 2 (some (stopCellUpdate 7 2 (some (.simple "L")))) =
      stopCellUpdate 7 2 (some (.simple "L")) :=
  c4_idempotence 7 2 (some (.simple "L")) (by decide)

/-! ### Claim C5 -/

theorem tallyStatus_eq (c : Counts) (s : String) :
    tallyStatus c s = ⟨c.present + (if s = "P" then 1 else 0),
                       c.absent + (if s = "A" then 1 else 0),
                       c.late + (if s = "L" then 1 else 0),
                       c.total + (if s = "P" then 1 else 0) + (if s = "A" then 1 else 0)
                         + (if s = "L" then 1 else 0)⟩ := by
  unfold tallyStatus
  by_cases hP : s = "P"
  · subst hP
    simp
  · by_cases hA : s = "A"
    · subst hA
      simp
    · by_cases hL : s = "L"
      · subst hL
        simp
      · simp [hP, hA, hL]

theorem tallySessions_eq (l : List SessionEntry) : ∀ c : Counts,
    l.foldl (fun acc e =>
      match e.status with
      | some s => tallyStatus acc s
      | none => acc) c
    = ⟨c.present + (l.filter fun e => e.status = some "P").length,
       c.absent + (l.filter fun e => e.status = some "A").length,
       c.late + (l.filter fun e => e.status = some "L").length,
       c.total + (l.filter fun e => e.status = some "P").length
         + (l.filter fun e => e.status = some "A").length
         + (l.filter fun e => e.status = some "L").length⟩ := by
  induction l with
  | nil => intro c; simp
  | cons e rest ih =>
    intro c
    rw [List.foldl_cons]
    cases hs : e.status with
    | none =>
      rw [ih c]
      simp [List.filter_cons, hs]
    | some s =>
      rw [ih (tallyStatus c s), tallyStatus_eq]
      simp only [List.filter_cons, hs, Option.some.injEq, Counts.mk.injEq]
      by_cases hP : s = "P"
      · subst hP
        simp
        all_goals omega
      · by_cases hA : s = "A"
        · subst hA
          simp
          all_goals omega
        · by_cases hL : s = "L"
          · subst hL
            simp
            all_goals omega
          · simp [hP, hA, hL]
            all_goals omega

theorem tallyCell_eq (c : Counts) (v : Cell) :
    tallyCell c v = ⟨c.present + Spec.cellStatusCount v "P",
                     c.absent + Spec.cellStatusCount v "A",
                     c.late + Spec.cellStatusCount v "L",
                     c.total + Spec.cellStatusCount v "P" + Spec.cellStatusCount v "A"
                       + Spec.cellStatusCount v "L"⟩ := by
  cases v with
  | simple s =>
    show tallyStatus c s = _
    rw [tallyStatus_eq]
    by_cases hP : s = "P"
    · subst hP
      simp [Spec.cellStatusCount, Spec.decode]
    · by_cases hA : s = "A"
      · subst hA
        simp [Spec.cellStatusCount, Spec.decode]
      · by_cases hL : s = "L"
        · subst hL
          simp [Spec.cellStatusCount, Spec.decode]
        · simp [Spec.cellStatusCount, Spec.decode, hP, hA, hL]
  | counted st cnt =>
    show tallyCounted c st cnt = _
    cases st with
    | none =>
      have h0 : ∀ σ : String, Spec.cellStatusCount (.counted none cnt) σ = 0 := by
        intro σ
        unfold Spec.cellStatusCount
        simp only [Spec.decode]
        rw [length_filter_map_const _ _ false (fun x => by simp)]
        simp
      simp [tallyCounted, h0]
    | some s =>
      have hcount : ∀ σ : String, Spec.cellStatusCount (.counted (some s) cnt) σ =
          if s = σ then cnt.getD 1 else 0 := by
        intro σ
        unfold Spec.cellStatusCount
        simp only [Spec.decode]
        by_cases hσ : s = σ
        · rw [length_filter_map_const _ _ true (fun x => by simp [hσ])]
          simp [hσ]
        · rw [length_filter_map_const _ _ false (fun x => by simp [hσ])]
          simp [hσ]
      unfold tallyCounted
      by_cases hP : s = "P"
      · subst hP
        simp [hcount]
      · by_cases hA : s = "A"
        · subst hA
          simp [hcount]
        · by_cases hL : s = "L"
          · subst hL
            simp [hcount]
          · simp [hcount, hP, hA, hL]
  | sessionsObj l ts =>
    show l.foldl _ c = _
    rw [tallySessions_eq]
    rfl
  | other =>
    show c = _
    simp [Spec.cellStatusCount, Spec.decode]

theorem tally_attendance_eq (att : List (String × Cell)) : ∀ c : Counts,
    att.foldl (fun acc kv => tallyCell acc kv.2) c =
      ⟨c.present + (att.map fun kv => Spec.cellStatusCount kv.2 "P").sum,
       c.absent + (att.map fun kv => Spec.cellStatusCount kv.2 "A").sum,
       c.late + (att.map fun kv => Spec.cellStatusCount kv.2 "L").sum,
       c.total + (att.map fun kv => Spec.cellStatusCount kv.2 "P").sum
         + (att.map fun kv => Spec.cellStatusCount kv.2 "A").sum
         + (att.map fun kv => Spec.cellStatusCount kv.2 "L").sum⟩ := by
  induction att with
  | nil => intro c; simp
  | cons kv rest ih =>
    intro c
    rw [List.foldl_cons, ih (tallyCell c kv.2), tallyCell_eq]
    simp only [List.map_cons, List.sum_cons, Counts.mk.injEq]
    refine ⟨by omega, by omega, by omega, by omega⟩

theorem student_statistics_eq (record : Student) (th : Option Thresholds) :
    calculate_student_statistics record th = Spec.student_statistics record th := by
  unfold calculate_student_statistics Spec.student_statistics Spec.bucket Spec.countOf
  by_cases he : record.attendance.isEmpty
  · simp only [he, if_true]
  · simp only [he, if_false, Bool.false_eq_true]
    have hc := tally_attendance_eq record.attendance ⟨0, 0, 0, 0⟩
    simp only [Nat.zero_add] at hc
    rw [hc]

/-- C5: per-student statistics of both backends coincide with the
spec-side definition: all three storage shapes decoded, only non-null
P/A/L entries counted, `percentage = (present + late) / total * 100`
rounded to three decimals when `total > 0` and 0 otherwise, the status
bucketed excellent > good > moderate else "at risk", and "no data"
exactly when the attendance mapping is empty. -/
theorem c5_student_statistics (record : Student) (th : Option Thresholds) :
    calculate_student_statistics record th = Spec.student_statistics record th :=
  student_statistics_eq record th

/-! ### Claim C6 -/

theorem tallyCellClass_eq_tallyCell (c : Counts) (v : Cell) :
    tallyCellClass c v = tallyCell c v := by
  cases v with
  | simple s => rfl
  | counted st cnt => rfl
  | other => rfl
  | sessionsObj l ts =>
    cases l with
    | nil => rfl
    | cons e rest => rfl

theorem class_counts_eq (st : Student) :
    st.attendance.foldl (fun acc kv => tallyCellClass acc kv.2) ⟨0, 0, 0, 0⟩ =
      ⟨Spec.countOf st "P", Spec.countOf st "A", Spec.countOf st "L",
       Spec.totalOf st⟩ := by
  have hfun : (fun (acc : Counts) (kv : String × Cell) => tallyCellClass acc kv.2)
      = fun acc kv => tallyCell acc kv.2 := by
    funext acc kv
    exact tallyCellClass_eq_tallyCell acc kv.2
  rw [hfun, tally_attendance_eq]
  simp [Spec.countOf, Spec.totalOf]

theorem totalOf_of_isEmpty (st : Student) (h : st.attendance.isEmpty = true) :
    Spec.totalOf st = 0 := by
  rw [List.isEmpty_iff] at h
  simp [Spec.totalOf, Spec.countOf, h]

theorem classStep_eq (th : Thresholds) (a : ClassAcc) (st : Student) :
    Db.classStep th a st =
      if 0 < Spec.totalOf st then
        (if th.excellent ≤ Spec.studentPct st then
          { a with excellent := a.excellent + 1,
                   totalAttendance := a.totalAttendance + Spec.studentPct st,
                   withAttendance := a.withAttendance + 1 }
        else if Spec.studentPct st < th.atRisk then
          { a with atRisk := a.atRisk + 1,
                   totalAttendance := a.totalAttendance + Spec.studentPct st,
                   withAttendance := a.withAttendance + 1 }
        else
          { a with totalAttendance := a.totalAttendance + Spec.studentPct st,
                   withAttendance := a.withAttendance + 1 })
      else a := by
  unfold Db.classStep
  by_cases he : st.attendance.isEmpty = true
  · have h0 : Spec.totalOf st = 0 := totalOf_of_isEmpty st he
    rw [if_pos he, h0, if_neg (by omega : ¬(0:Nat) < 0)]
  · rw [if_neg he, class_counts_eq st]
    rfl

theorem class_fold_eq (th : Thresholds) :
    ∀ (l : List Student) (a : ClassAcc),
      l.foldl (Db.classStep th) a
      = ⟨a.atRisk + Spec.classAtRiskCount l th,
         a.excellent + Spec.classExcellentCount l th,
         a.totalAttendance + ((Spec.studentsWithData l).map Spec.studentPct).sum,
         a.withAttendance + (Spec.studentsWithData l).length⟩ := by
  intro l
  induction l with
  | nil =>
    intro a
    simp [Spec.classAtRiskCount, Spec.classExcellentCount, Spec.studentsWithData]
  | cons st rest ih =>
    intro a
    rw [List.foldl_cons, classStep_eq]
    unfold Spec.classAtRiskCount Spec.classExcellentCount Spec.studentsWithData
    rw [List.filter_cons, List.filter_cons, List.filter_cons]
    by_cases hd : 0 < Spec.totalOf st
    · rw [if_pos hd]
      by_cases hexc : th.excellent ≤ Spec.studentPct st
      · rw [if_pos hexc, ih]
        simp [hd, hexc, Spec.classAtRiskCount, Spec.classExcellentCount,
          Spec.studentsWithData, ClassAcc.mk.injEq]
        all_goals and_intros <;> first | omega | ring
      · rw [if_neg hexc]
        by_cases har : Spec.studentPct st < th.atRisk
        · rw [if_pos har, ih]
          simp [hd, hexc, har, Spec.classAtRiskCount, Spec.classExcellentCount,
            Spec.studentsWithData, ClassAcc.mk.injEq]
          all_goals and_intros <;> first | omega | ring
        · rw [if_neg har, ih]
          simp [hd, hexc, har, Spec.classAtRiskCount, Spec.classExcellentCount,
            Spec.studentsWithData, ClassAcc.mk.injEq]
          all_goals and_intros <;> first | omega | ring
    · rw [if_neg hd, ih]
      simp [hd, Spec.classAtRiskCount, Spec.classExcellentCount,
        Spec.studentsWithData]

theorem round3_zero : round3 0 = 0 := by
  simp [round3, roundHalfEven]

/-- C6 (amended): the file-based per-class statistics behave as claimed —
Present and Late both count as attended in each student's percentage, the
average runs over exactly the students with at least one valid session,
the bucket counts are taken against the class thresholds, and
totalStudents is the full roster size including zero-attendance
students.  The MongoDB backend's class statistics are entirely different:
they count a day as attended only when it holds a Present mark (Late is
not attended), divide by days rather than sessions, and return no
atRiskCount/excellentCount at all (see the counterexample). -/
theorem c6_class_statistics (t : Nat) (cd : ClassDoc) :
    (Db.calculate_class_statistics t cd).totalStudents = cd.students.length ∧
    (Db.calculate_class_statistics t cd).avgAttendance = Spec.classAvg cd.students ∧
    (Db.calculate_class_statistics t cd).atRiskCount =
      Spec.classAtRiskCount cd.students (cd.thresholds.getD defaultThresholds) ∧
    (Db.calculate_class_statistics t cd).excellentCount =
      Spec.classExcellentCount cd.students (cd.thresholds.getD defaultThresholds) := by
  unfold Db.calculate_class_statistics
  by_cases he : cd.students.isEmpty = true
  · have hnil := List.isEmpty_iff.mp he
    rw [if_pos he, hnil]
    simp [Spec.classAvg, Spec.studentsWithData, Spec.classAtRiskCount,
      Spec.classExcellentCount]
  · rw [if_neg he]
    rw [class_fold_eq (cd.thresholds.getD defaultThresholds) cd.students ⟨0, 0, 0, 0⟩]
    refine ⟨rfl, ?_, by simp, by simp⟩
    simp only [Nat.zero_add, zero_add]
    unfold Spec.classAvg
    by_cases hw : (Spec.studentsWithData cd.students).isEmpty = true
    · have hlen : (Spec.studentsWithData cd.students).length = 0 := by
        rw [List.isEmpty_iff.mp hw]
        rfl
      rw [if_pos hw, hlen, if_neg (by omega : ¬(0:Nat) < 0)]
      exact round3_zero
    · have hlen : 0 < (Spec.studentsWithData cd.students).length := by
        rcases Nat.eq_zero_or_pos (Spec.studentsWithData cd.students).length with h0 | hp
        · exact absurd (List.isEmpty_iff.mpr (List.length_eq_zero.mp h0)) hw
        · exact hp
      rw [if_neg hw, if_pos hlen]

/-- C6 counterexample: a class with one student whose single mark is
Late.  Counting Present and Late as attended, the student's percentage is
100; the MongoDB class statistics instead report an average attendance of
0 — a day counts as attended there only with a Present mark — and carry
no atRiskCount/excellentCount fields at all. -/
theorem c6_counterexample :
    Mongo.calculate_class_statistics
      ⟨"t1", "enrollment_via_id", none,
        [⟨"r1", "1", "Stu", "s@e", [("2024-05-01", .simple "L")]⟩],
        ⟨1, 0, 0, 0, none⟩⟩ = ⟨1, 0, 1⟩ ∧
    Spec.studentPct ⟨"r1", "1", "Stu", "s@e", [("2024-05-01", .simple "L")]⟩ = 100 ∧
    (0 : Rat) ≠ 100 := by
  refine ⟨?_, ?_, by norm_num⟩
  · have hf : List.filter (fun kv => mongoDayPresent kv.2)
        [("2024-05-01", Cell.simple "L")] = [] := rfl
    norm_num [Mongo.calculate_class_statistics, hf, round2, roundHalfEven,
      Int.fract_zero, Int.floor_zero]
  · have hP : List.filter (fun e => decide (e.status = some "P"))
        [(⟨"session_1", "Session 1", some "L"⟩ : SessionEntry)] = [] := rfl
    have hA : List.filter (fun e => decide (e.status = some "A"))
        [(⟨"session_1", "Session 1", some "L"⟩ : SessionEntry)] = [] := rfl
    norm_num [Spec.studentPct, Spec.countOf, Spec.totalOf, Spec.cellStatusCount,
      Spec.decode, hP, hA]

/-- C10: a student record whose attendance mapping is non-empty but holds
no valid P/A/L entry gets percentage 0.0 and status "at risk" — not
"no data", which is reserved for an entirely empty attendance mapping.
(The status conclusion assumes the effective threshold cutoffs are
positive, as the defaults 95/90/85 are.) -/
theorem c10_zero_valid_at_risk (record : Student) (th : Option Thresholds)
    (hne : record.attendance.isEmpty = false)
    (hzero : Spec.countOf record "P" + Spec.countOf record "A"
      + Spec.countOf record "L" = 0)
    (hexc : 0 < (th.getD defaultThresholds).excellent)
    (hgood : 0 < (th.getD defaultThresholds).good)
    (hmod : 0 < (th.getD defaultThresholds).moderate) :
    (calculate_student_statistics record th).percentage = 0 ∧
    (calculate_student_statistics record th).status = "at risk" ∧
    (calculate_student_statistics record th).status ≠ "no data" := by
  rw [student_statistics_eq record th]
  simp only [Spec.student_statistics, Spec.bucket, hne, Bool.false_eq_true, if_false,
    hzero, Nat.lt_irrefl, Nat.cast_zero]
  rw [if_neg (not_le.mpr hexc), if_neg (not_le.mpr hgood), if_neg (not_le.mpr hmod),
    round3_zero]
  exact ⟨rfl, rfl, by simp⟩

/-- C10 witness: a cell holding only a null-status session slot. -/
theorem c10_zero_valid_at_risk_witness :
    (calculate_student_statistics
      ⟨"r1", "1", "Stu", "s@e", [("2024-05-01",
        .sessionsObj [⟨"session_1", "Session 1", none⟩] 0)]⟩ none).percentage = 0 ∧
    (calculate_student_statistics
      ⟨"r1", "1", "Stu", "s@e", [("2024-05-01",
        .sessionsObj [⟨"session_1", "Session 1", none⟩] 0)]⟩ none).status = "at risk" ∧
    (calculate_student_statistics
      ⟨"r1", "1", "Stu", "s@e", [("2024-05-01",
        .sessionsObj [⟨"session_1", "Session 1", none⟩] 0)]⟩ none).status ≠ "no data" :=
  c10_zero_valid_at_risk
    ⟨"r1", "1", "Stu", "s@e", [("2024-05-01",
      .sessionsObj [⟨"session_1", "Session 1", none⟩] 0)]⟩ none
    rfl (by decide) (by decide) (by decide) (by decide)

/-- C7 (amended): stopping a QR session in the file-based backend fails
with "No active session" when there is no session or the session is not
active, and with "Unauthorized" when the caller is not the session's
teacher; on success every actively-enrolled, unscanned roster student's
cell for the date receives the stop verdict 'A' via the §4.3 merge, every
other student and every other date is untouched, the session is marked
stopped with the stop timestamp, and the scanned / marked-absent counts
are returned.  The class statistics field, however, is written back
UNCHANGED: stop_qr_session never recomputes it (the spec's "recomputes
class statistics" conjunct fails — see the counterexample). -/
theorem c7_stop_qr_session (session : Option QrSession) (enrollments : List Enrollment)
    (cd : ClassDoc) (teacher_id date : String) (t : Nat) :
    ((session = none ∨ ∃ s, session = some s ∧ s.status ≠ "active") →
      Db.stop_qr_session session enrollments cd teacher_id date t =
        .error "No active session") ∧
    (∀ s, session = some s → s.status = "active" → s.teacher_id ≠ teacher_id →
      Db.stop_qr_session session enrollments cd teacher_id date t =
        .error "Unauthorized") ∧
    (∀ s, session = some s → s.status = "active" → s.teacher_id = teacher_id →
      ∃ cd' s' nScanned nMarked,
        Db.stop_qr_session session enrollments cd teacher_id date t =
          .ok (cd', s', nScanned, nMarked) ∧
        (∀ st ∈ cd.students,
          st.id ∈ Db.activeRecordIds enrollments → st.id ∉ s.scanned_students →
          Db.stopMark t s.session_number date st ∈ cd'.students) ∧
        (∀ st ∈ cd.students,
          st.id ∉ Db.activeRecordIds enrollments ∨ st.id ∈ s.scanned_students →
          st ∈ cd'.students) ∧
        (∀ st' ∈ cd'.students, ∃ st, st ∈ cd.students ∧ st'.id = st.id ∧
          ∀ d, d ≠ date → getKey st'.attendance d = getKey st.attendance d) ∧
        cd'.statistics = cd.statistics ∧
        s' = { s with status := "stopped", stopped_at := some t } ∧
        nScanned = s.scanned_students.dedup.length ∧
        nMarked = (cd.students.filter fun st =>
          decide (st.id ∈ Db.activeRecordIds enrollments ∧
            st.id ∉ s.scanned_students)).length) := by
  refine ⟨?_, ?_, ?_⟩
  · rintro (rfl | ⟨s, rfl, hs⟩)
    · rfl
    · simp only [Db.stop_qr_session]
      rw [if_pos hs]
  · intro s hss hact hteach
    subst hss
    simp only [Db.stop_qr_session]
    rw [if_neg (fun h => h hact), if_pos hteach]
  · intro s hss hact hteach
    subst hss
    have hred : Db.stop_qr_session (some s) enrollments cd teacher_id date t =
        .ok ({ cd with students := cd.students.map fun st =>
                if st.id ∈ Db.activeRecordIds enrollments ∧ st.id ∉ s.scanned_students then
                  Db.stopMark t s.session_number date st
                else st },
             { s with status := "stopped", stopped_at := some t },
             s.scanned_students.dedup.length,
             (cd.students.filter fun st => decide (st.id ∈ Db.activeRecordIds enrollments ∧
               st.id ∉ s.scanned_students)).length) := by
      simp only [Db.stop_qr_session]
      rw [if_neg (fun h => h hact), if_neg (fun h => h hteach)]
    refine ⟨_, _, _, _, hred, ?_, ?_, ?_, rfl, rfl, rfl, rfl⟩
    · intro st hst hin hnin
      refine List.mem_map.mpr ⟨st, hst, ?_⟩
      rw [if_pos ⟨hin, hnin⟩]
    · intro st hst h
      refine List.mem_map.mpr ⟨st, hst, ?_⟩
      rw [if_neg (fun hc => h.elim (fun hn => hn hc.1) (fun hm => hc.2 hm))]
    · intro st' hst'
      obtain ⟨st, hst, rfl⟩ := List.mem_map.mp hst'
      by_cases hc : st.id ∈ Db.activeRecordIds enrollments ∧ st.id ∉ s.scanned_students
      · rw [if_pos hc]
        exact ⟨st, hst, rfl, fun d hd => getKey_setKey_ne st.attendance _ hd⟩
      · rw [if_neg hc]
        exact ⟨st, hst, rfl, fun d _ => rfl⟩

/-- C7 witness: a missing session is rejected, and a foreign teacher's
stop attempt on an active session is rejected. -/
theorem c7_stop_qr_session_witness :
    Db.stop_qr_session none []
      ⟨"t1", "enrollment_via_id", none, [], ⟨0, 0, 0, 0, none⟩⟩
      "t1" "2024-05-01" 0 = .error "No active session" ∧
    Db.stop_qr_session
      (some ⟨"c1", "t1", "2024-05-01", 1, 30, "code", [], "active", 0, 0, none⟩) []
      ⟨"t1", "enrollment_via_id", none, [], ⟨0, 0, 0, 0, none⟩⟩
      "t2" "2024-05-01" 0 = .error "Unauthorized" :=
  ⟨(c7_stop_qr_session none []
      ⟨"t1", "enrollment_via_id", none, [], ⟨0, 0, 0, 0, none⟩⟩
      "t1" "2024-05-01" 0).1 (Or.inl rfl),
   (c7_stop_qr_session
      (some ⟨"c1", "t1", "2024-05-01", 1, 30, "code", [], "active", 0, 0, none⟩) []
      ⟨"t1", "enrollment_via_id", none, [], ⟨0, 0, 0, 0, none⟩⟩
      "t2" "2024-05-01" 0).2.1 _ rfl rfl (by decide)⟩

/-- C7 counterexample to the "recomputes class statistics" conjunct: a
successful stop marks the lone actively-enrolled student absent, yet the
returned class document still carries the stale cached statistics (here
`totalStudents = 0`), while actually recomputing them on that same
document yields `totalStudents = 1`.  Only the separate per-request
recomputation in `main.py` refreshes the statistics; the cited manager
function does not. -/
theorem c7_counterexample :
    (Db.stop_qr_session
        (some ⟨"c1", "t1", "2024-05-01", 1, 30, "code", [], "active", 0, 0, none⟩)
        [⟨"u1", "r1", "active", "1", 0, none, none⟩]
        ⟨"t1", "enrollment_via_id", none,
          [⟨"r1", "1", "Stu", "s@e", []⟩], ⟨0, 0, 0, 0, none⟩⟩
        "t1" "2024-05-01" 5).map
      (fun r => (r.1.statistics.totalStudents,
                 (Db.calculate_class_statistics 5 r.1).totalStudents))
      = .ok (0, 1) := by
  rfl

/-! ### C9: the unenroll / re-enroll round trip -/

theorem markFirstInactive_eq_of_clean (s : String) (t : Nat) (e0 : Enrollment)
    (q : List Enrollment) (h0 : e0.student_id = s) (ha : e0.status = "active") :
    ∀ p : List Enrollment, (∀ e ∈ p, e.student_id ≠ s) →
      Db.markFirstInactive s t (p ++ e0 :: q) =
        some (p ++ { e0 with status := "inactive", unenrolled_at := some t } :: q) := by
  intro p
  induction p with
  | nil =>
    intro _
    simp only [List.nil_append, Db.markFirstInactive]
    rw [if_pos ⟨h0, ha⟩]
  | cons e p' ih =>
    intro hp
    have he : e.student_id ≠ s := hp e (List.mem_cons_self e p')
    simp only [List.cons_append, Db.markFirstInactive, List.append_eq]
    rw [if_neg (fun hc => he hc.1), ih (fun x hx => hp x (List.mem_cons_of_mem e hx))]
    rfl

theorem findFirstEnrollment_eq_of_clean (s : String) (e0 : Enrollment)
    (q : List Enrollment) (h0 : e0.student_id = s) :
    ∀ p : List Enrollment, (∀ e ∈ p, e.student_id ≠ s) →
      Db.findFirstEnrollment s (p ++ e0 :: q) = some e0 := by
  intro p
  induction p with
  | nil =>
    intro _
    simp only [List.nil_append, Db.findFirstEnrollment]
    rw [if_pos h0]
  | cons e p' ih =>
    intro hp
    have he : e.student_id ≠ s := hp e (List.mem_cons_self e p')
    simp only [List.cons_append, Db.findFirstEnrollment, List.append_eq]
    rw [if_neg he, ih (fun x hx => hp x (List.mem_cons_of_mem e hx))]

theorem reactivateFirst_eq_of_clean (s rn : String) (t : Nat) (e0 : Enrollment)
    (q : List Enrollment) (h0 : e0.student_id = s) :
    ∀ p : List Enrollment, (∀ e ∈ p, e.student_id ≠ s) →
      Db.reactivateFirst s rn t (p ++ e0 :: q) =
        p ++ { e0 with status := "active", re_enrolled_at := some t, roll_no := rn } :: q := by
  intro p
  induction p with
  | nil =>
    intro _
    simp only [List.nil_append, Db.reactivateFirst]
    rw [if_pos h0]
  | cons e p' ih =>
    intro hp
    have he : e.student_id ≠ s := hp e (List.mem_cons_self e p')
    simp only [List.cons_append, Db.reactivateFirst, List.append_eq]
    rw [if_neg he, ih (fun x hx => hp x (List.mem_cons_of_mem e hx))]

theorem updateFirstRecord_eq_of_clean (rid : String) (info : StudentInfo) (st0 : Student)
    (sq : List Student) (h0 : st0.id = rid) :
    ∀ sp : List Student, (∀ st ∈ sp, st.id ≠ rid) →
      Db.updateFirstRecord rid info (sp ++ st0 :: sq) =
        some (sp ++ { st0 with rollNo := info.rollNo, name := info.name } :: sq) := by
  intro sp
  induction sp with
  | nil =>
    intro _
    simp only [List.nil_append, Db.updateFirstRecord]
    rw [if_pos h0]
  | cons st sp' ih =>
    intro hsp
    have he : st.id ≠ rid := hsp st (List.mem_cons_self st sp')
    simp only [List.cons_append, Db.updateFirstRecord, List.append_eq]
    rw [if_neg he, ih (fun x hx => hsp x (List.mem_cons_of_mem st hx))]
    rfl

/-- C9: when the class holds exactly one enrollment row for the student
(somewhere in the list, all other rows belonging to other students) and
the roster holds its record, unenrolling only flips that row's status to
inactive with an `unenrolled_at` stamp — the student records, and hence
every attendance cell, are untouched; a subsequent `enroll_student`
reactivates that very row, keeps its original `student_record_id` rather
than the freshly generated one, and only refreshes the record's roll
number and name, so the record's attendance mapping afterwards is exactly
what it was before the cycle. -/
theorem c9_unenroll_reenroll (p q : List Enrollment) (e0 : Enrollment)
    (sp sq : List Student) (st0 : Student) (s : String) (info : StudentInfo)
    (newRecordId : String) (t t' : Nat)
    (hp : ∀ e ∈ p, e.student_id ≠ s) (hq : ∀ e ∈ q, e.student_id ≠ s)
    (he0s : e0.student_id = s) (he0a : e0.status = "active")
    (hsp : ∀ st ∈ sp, st.id ≠ e0.student_record_id)
    (hst0 : st0.id = e0.student_record_id) :
    Db.unenroll_student s (p ++ e0 :: q) (sp ++ st0 :: sq) t =
      (true, p ++ { e0 with status := "inactive", unenrolled_at := some t } :: q,
       sp ++ st0 :: sq) ∧
    Db.enroll_student s info
        (p ++ { e0 with status := "inactive", unenrolled_at := some t } :: q)
        (sp ++ st0 :: sq) newRecordId t' =
      .ok ("re-enrolled", e0.student_record_id,
        p ++ { e0 with status := "active", roll_no := info.rollNo,
                       unenrolled_at := some t, re_enrolled_at := some t' } :: q,
        sp ++ { st0 with rollNo := info.rollNo, name := info.name } :: sq) ∧
    ({ st0 with rollNo := info.rollNo, name := info.name }).attendance = st0.attendance := by
  refine ⟨?_, ?_, rfl⟩
  · simp only [Db.unenroll_student,
      markFirstInactive_eq_of_clean s t e0 q he0s he0a p hp]
  · have hany : ((p ++ { e0 with status := "inactive", unenrolled_at := some t } :: q).any
        fun e => decide (e.student_id = s ∧ e.status = "active")) = false := by
      rw [List.any_eq_false]
      intro e he hdec
      rw [decide_eq_true_eq] at hdec
      obtain ⟨h1, h2⟩ := hdec
      simp only [List.mem_append, List.mem_cons] at he
      rcases he with hp' | he0 | hq'
      · exact hp e hp' h1
      · rw [he0] at h2
        simp at h2
      · exact hq e hq' h1
    have hfind : Db.findFirstEnrollment s
        (p ++ { e0 with status := "inactive", unenrolled_at := some t } :: q) =
        some { e0 with status := "inactive", unenrolled_at := some t } :=
      findFirstEnrollment_eq_of_clean s
        { e0 with status := "inactive", unenrolled_at := some t } q he0s p hp
    have hre : Db.reactivateFirst s info.rollNo t'
        (p ++ { e0 with status := "inactive", unenrolled_at := some t } :: q) =
        p ++ { e0 with status := "active", roll_no := info.rollNo,
                       unenrolled_at := some t, re_enrolled_at := some t' } :: q :=
      reactivateFirst_eq_of_clean s info.rollNo t'
        { e0 with status := "inactive", unenrolled_at := some t } q he0s p hp
    have hupd : Db.updateFirstRecord e0.student_record_id info (sp ++ st0 :: sq) =
        some (sp ++ { st0 with rollNo := info.rollNo, name := info.name } :: sq) :=
      updateFirstRecord_eq_of_clean e0.student_record_id info st0 sq hst0 sp hsp
    simp only [Db.enroll_student, hany, Bool.false_eq_true, if_false, hfind, hre, hupd]

/-- C9 witness: a concrete one-student class; attendance survives the
unenroll / re-enroll cycle intact while roll number and name are
refreshed, and the original record id "r1" is reused (not the freshly
generated "rNew"). -/
theorem c9_unenroll_reenroll_witness :
    Db.unenroll_student "u1" [⟨"u1", "r1", "active", "1", 0, none, none⟩]
        [⟨"r1", "1", "Ann", "a@e", [("2024-05-01", Cell.simple "P")]⟩] 3 =
      (true, [⟨"u1", "r1", "inactive", "1", 0, some 3, none⟩],
       [⟨"r1", "1", "Ann", "a@e", [("2024-05-01", Cell.simple "P")]⟩]) ∧
    Db.enroll_student "u1" ⟨"2", "Ann B", "a@e"⟩
        [⟨"u1", "r1", "inactive", "1", 0, some 3, none⟩]
        [⟨"r1", "1", "Ann", "a@e", [("2024-05-01", Cell.simple "P")]⟩] "rNew" 7 =
      .ok ("re-enrolled", "r1",
        [⟨"u1", "r1", "active", "2", 0, some 3, some 7⟩],
        [⟨"r1", "2", "Ann B", "a@e", [("2024-05-01", Cell.simple "P")]⟩]) ∧
    (⟨"r1", "2", "Ann B", "a@e", [("2024-05-01", Cell.simple "P")]⟩ : Student).attendance =
      [("2024-05-01", Cell.simple "P")] :=
  c9_unenroll_reenroll [] [] ⟨"u1", "r1", "active", "1", 0, none, none⟩
    [] [] ⟨"r1", "1", "Ann", "a@e", [("2024-05-01", Cell.simple "P")]⟩
    "u1" ⟨"2", "Ann B", "a@e"⟩ "rNew" 3 7
    (by simp) (by simp) rfl rfl (by simp) rfl

end Attensheets
